import Mathlib

/-!
Verification development for the `icalendar` crate of the plannr repository.

Strings are modeled as `List Char` (`Str` below).  Rust `Result`/`anyhow`
fallibility is modeled with `Except PErr`.  Machine integers (`u8`, `u16`,
`u32`, `u64`) are modeled as `Nat` together with the explicit range checks the
source performs (`str::parse` overflow is an error, so parsed values never
exceed the type's capacity and no wrap-around arithmetic occurs).  Loops whose
termination depends on the input shrinking are written with an explicit fuel
parameter; top-level entry points supply enough fuel (one unit per remaining
input character plus one), so fuel exhaustion is unreachable on the inputs the
theorems mention.
-/

namespace ICal

/-- Strings of the source are modeled as lists of characters. -/
abbrev Str := List Char

/-- Model of Rust `char::is_control` (Unicode category Cc):
code points 0x00-0x1F, 0x7F, and 0x80-0x9F. -/
def isControlChar (c : Char) : Bool :=
  c.toNat < 32 || c.toNat == 127 || (128 ≤ c.toNat && c.toNat ≤ 159)

/-! ## Decimal formatting (model of Rust `write!("{:0w}", n)`)

`decDigits n` is the list of decimal digit characters of `n`, most significant
first, exactly as Rust's `Display for uN` prints it; `padZeros w s` left-pads
with `'0'` to width `w`, modeling the `{:0w}` format specifier. -/

/-- Worker of the decimal printer: divide `v` by ten until one digit is left,
prepending each remainder digit onto `acc`.  The `gas` argument exists only
to make the recursion structural; any amount above `v` behaves the same. -/
def decDigitsCore (gas : Nat) (v : Nat) (acc : List Char) : List Char :=
  match gas with
  | 0 => acc
  | g + 1 =>
    if v < 10 then Nat.digitChar v :: acc
    else decDigitsCore g (v / 10) (Nat.digitChar (v % 10) :: acc)

/-- Decimal digit characters of `n`, most significant first (`0` prints as "0"). -/
def decDigits (n : Nat) : List Char := decDigitsCore (n + 1) n []

theorem decDigitsCore_append (gas : Nat) :
    ∀ (v : Nat) (acc : List Char),
      decDigitsCore gas v acc = decDigitsCore gas v [] ++ acc := by
  induction gas with
  | zero =>
    intro v acc
    simp [decDigitsCore]
  | succ g ih =>
    intro v acc
    by_cases hv : v < 10
    · simp [decDigitsCore, hv]
    · rw [show decDigitsCore (g + 1) v acc =
          decDigitsCore g (v / 10) (Nat.digitChar (v % 10) :: acc) from by
            simp [decDigitsCore, hv],
        show decDigitsCore (g + 1) v [] =
          decDigitsCore g (v / 10) [Nat.digitChar (v % 10)] from by
            simp [decDigitsCore, hv],
        ih (v / 10) (Nat.digitChar (v % 10) :: acc),
        ih (v / 10) [Nat.digitChar (v % 10)]]
      simp

theorem decDigitsCore_gas (v : Nat) :
    ∀ gas₁ gas₂ : Nat, v < gas₁ → v < gas₂ →
      decDigitsCore gas₁ v [] = decDigitsCore gas₂ v [] := by
  induction v using Nat.strong_induction_on with
  | _ v ih =>
    intro gas₁ gas₂ hg₁ hg₂
    match gas₁, gas₂ with
    | g₁ + 1, g₂ + 1 =>
      by_cases hv : v < 10
      · simp [decDigitsCore, hv]
      · rw [show decDigitsCore (g₁ + 1) v [] =
            decDigitsCore g₁ (v / 10) [Nat.digitChar (v % 10)] from by
              simp [decDigitsCore, hv],
          show decDigitsCore (g₂ + 1) v [] =
            decDigitsCore g₂ (v / 10) [Nat.digitChar (v % 10)] from by
              simp [decDigitsCore, hv],
          decDigitsCore_append g₁, decDigitsCore_append g₂,
          ih (v / 10) (Nat.div_lt_self (by omega) (by omega)) g₁ g₂
            (by omega) (by omega)]

/-- Recursive characterization of `decDigits` (the shape in which Rust's
decimal `Display` is usually described). -/
theorem decDigits_spec (n : Nat) :
    decDigits n =
      if n < 10 then [Nat.digitChar n]
      else decDigits (n / 10) ++ [Nat.digitChar (n % 10)] := by
  by_cases h : n < 10
  · simp [decDigits, decDigitsCore, h]
  · rw [if_neg h,
      show decDigits n = decDigitsCore n (n / 10) [Nat.digitChar (n % 10)] from by
        simp [decDigits, decDigitsCore, h],
      decDigitsCore_append,
      decDigitsCore_gas (n / 10) n (n / 10 + 1)
        (Nat.div_lt_self (by omega) (by omega)) (by omega)]
    rfl

/-- Left-pad a string with `'0'` to width `w` (Rust `{:0w}` padding). -/
def padZeros (w : Nat) (s : Str) : Str :=
  List.replicate (w - s.length) '0' ++ s

/-- Numeric value of a string of decimal digits (most significant first). -/
def decValue (s : Str) : Nat :=
  s.foldl (fun a c => a * 10 + (c.toNat - '0'.toNat)) 0

theorem digitChar_val {d : Nat} (h : d < 10) :
    (Nat.digitChar d).toNat - 48 = d := by
  interval_cases d <;> decide

theorem digitChar_isDigit {d : Nat} (h : d < 10) :
    (Nat.digitChar d).isDigit = true := by
  interval_cases d <;> decide

theorem decValue_append_singleton (s : Str) (c : Char) :
    decValue (s ++ [c]) = (decValue s) * 10 + (c.toNat - '0'.toNat) := by
  simp [decValue, List.foldl_append]

theorem decValue_decDigits (n : Nat) : decValue (decDigits n) = n := by
  induction n using Nat.strong_induction_on with
  | _ n ih =>
    by_cases h : n < 10
    · rw [decDigits_spec, if_pos h]
      simpa [decValue] using digitChar_val h
    · have h0 : '0'.toNat = 48 := rfl
      rw [decDigits_spec, if_neg h, decValue_append_singleton,
        ih (n / 10) (Nat.div_lt_self (by omega) (by omega)), h0,
        digitChar_val (Nat.mod_lt _ (by omega))]
      omega

theorem decDigits_all_isDigit (n : Nat) : ∀ c ∈ decDigits n, c.isDigit = true := by
  induction n using Nat.strong_induction_on with
  | _ n ih =>
    by_cases h : n < 10
    · rw [decDigits_spec, if_pos h]
      intro c hc
      simp only [List.mem_singleton] at hc
      subst hc
      exact digitChar_isDigit h
    · rw [decDigits_spec, if_neg h]
      intro c hc
      rcases List.mem_append.1 hc with h1 | h2
      · exact ih (n / 10) (Nat.div_lt_self (by omega) (by omega)) c h1
      · simp only [List.mem_singleton] at h2
        subst h2
        exact digitChar_isDigit (Nat.mod_lt _ (by omega))

theorem decDigits_ne_nil (n : Nat) : decDigits n ≠ [] := by
  rw [decDigits_spec]
  by_cases h : n < 10 <;> simp [h]

theorem decDigits_length_le (k n : Nat) (hk : 1 ≤ k) (h : n < 10 ^ k) :
    (decDigits n).length ≤ k := by
  induction k generalizing n with
  | zero => omega
  | succ k ih =>
    by_cases hn : n < 10
    · rw [decDigits_spec, if_pos hn]
      simp only [List.length_singleton]
      omega
    · rw [decDigits_spec, if_neg hn]
      simp only [List.length_append, List.length_singleton]
      have hk1 : 1 ≤ k := by
        by_contra hc
        have hkz : k = 0 := by omega
        subst hkz
        simp at h
        omega
      have hdiv : n / 10 < 10 ^ k := by
        rw [Nat.pow_succ] at h
        omega
      have := ih (n / 10) hk1 hdiv
      omega

theorem decValue_cons_zero (s : Str) : decValue ('0' :: s) = decValue s := by
  simp [decValue]

theorem padZeros_length {w : Nat} {s : Str} (h : s.length ≤ w) :
    (padZeros w s).length = w := by
  simp [padZeros]
  omega

theorem padZeros_all_isDigit {w : Nat} {s : Str}
    (h : ∀ c ∈ s, c.isDigit = true) : ∀ c ∈ padZeros w s, c.isDigit = true := by
  intro c hc
  rcases List.mem_append.1 hc with h1 | h2
  · have := List.eq_of_mem_replicate h1
    subst this
    decide
  · exact h c h2

theorem decValue_replicate_zero (m : Nat) (s : Str) :
    decValue (List.replicate m '0' ++ s) = decValue s := by
  induction m with
  | zero => simp
  | succ m ih =>
    simp only [List.replicate_succ, List.cons_append]
    rw [decValue_cons_zero]
    exact ih

theorem decValue_padZeros (w : Nat) (s : Str) :
    decValue (padZeros w s) = decValue s :=
  decValue_replicate_zero _ s

/-! ## Error model

One constructor per distinct failure site of the source (`parser/error.rs`
plus each `bail!`/`anyhow!` site); the comment on each constructor quotes the
source message it stands for.  `fuel` is the model artifact for loop fuel
exhaustion and is unreachable for the inputs appearing in the theorems. -/

inductive PErr where
  /-- Model artifact: loop fuel exhausted (never reached with adequate fuel). -/
  | fuel : PErr
  /-- `helpers::TagError` / `ParserError::Tag`: "expected `tag`". -/
  | tagErr (expected : Str) : PErr
  /-- `ParserError::ParseInt`: "could not parse integer". -/
  | parseIntErr : PErr
  /-- `ParserError::IntOutOfRange`: "out of range value v for ty (min..=max)". -/
  | intOutOfRange (ty : Str) (min max value : Nat) : PErr
  /-- `ParserError::TakeWhileMN`: "expected parser to match min to max times". -/
  | takeWhileErr (min max : Nat) : PErr
  /-- `ParserError::expected("2 ascii digits")` in `time_hour` etc. -/
  | expectedDigits : PErr
  /-- `helpers::parse_u32`: "overflow". -/
  | overflowErr : PErr
  /-- `DurationKind::parse`: "expected integer or `T`". -/
  | expectedIntOrT : PErr
  /-- `DurationKind::parse`: "expected `W` or `D`". -/
  | expectedWorD : PErr
  /-- `DurationKind::parse`: "expected integer". -/
  | expectedInt : PErr
  /-- `DurationKind::parse`: "expected one of `H`, `M`, `S`". -/
  | expectedHMS : PErr
  /-- `Line::parse`: "malformed icalendar line: input". -/
  | malformedLine (line : Str) : PErr
  /-- `ParamMap::parse_param`: "invalid parameter `input`: no '='". -/
  | paramNoEq (p : Str) : PErr
  /-- `helpers::check_iana_token`: "input is not a valid name". -/
  | notAValidName (n : Str) : PErr
  /-- `helpers::quoted_string`: "quoted string must start with `\"`". -/
  | quotedStart : PErr
  /-- `helpers::quoted_string`: "quoted string must end with `\"`". -/
  | quotedEnd : PErr
  /-- `helpers::safe_char`/`qsafe_char`: "control characters not allowed". -/
  | controlChar : PErr
  /-- `helpers::safe_char`: "`ch` not allowed" (for `"`, `;`, `:`, `,`). -/
  | charNotAllowed (c : Char) : PErr
  /-- `helpers::qsafe_char`: "`\"` is not allowed". -/
  | quoteNotAllowed : PErr
  /-- `Calendar::parse`: "empty iterator: call is_empty before this function". -/
  | emptyIterator : PErr
  /-- `Calendar::parse`: "expected `BEGIN:VCALENDAR`". -/
  | expectedBeginVCalendar : PErr
  /-- `Calendar::parse`/`Event::parse`: "expected want, found value" on END. -/
  | expectedEndValue (want found : Str) : PErr
  /-- `CalendarBuilder::build`: "PRODID not specified". -/
  | prodIdNotSpecified : PErr
  /-- `impl_set_01!`: "expected 0..=1 label, found at least 2". -/
  | expectedAtMostOne (label : Str) : PErr
  /-- `impl_set_1!` / `set_version`: "expected 1 label, found at least 2". -/
  | expectedExactlyOne (label : Str) : PErr
  /-- `Calendar::parse`/`Event::parse`/`skip_current`: "unexpected EOF". -/
  | unexpectedEOF : PErr
  /-- `parse_prodid`/`parse_version`/`parse_cal_scale`: "unexpected param p". -/
  | unexpectedParam (p : Str) : PErr
  /-- `parse_version`: "only version 2.0 supported". -/
  | onlyVersion20 : PErr
  /-- `parse_event_status`: "unexpected status other". -/
  | unexpectedStatus (s : Str) : PErr
  /-- `parse_time_transparency`: "unexpected time transparency value other". -/
  | unexpectedTransp (s : Str) : PErr
  /-- `EventBuilder::set_created`: "expected UTC time". -/
  | expectedUtc : PErr
  /-- `EventBuilder::build`: "missing UID on VEVENT". -/
  | missingUid : PErr
  /-- `VecOne::get_single`: "expected 1 element, found n". -/
  | expectedSingle (found : Nat) : PErr
  /-- `helpers::parse_date_or_datetime`: "unexpected recurrance id VALUE param". -/
  | unexpectedValueParam (v : Str) : PErr
  /-- `parse_attachment`: "only BINARY value is allowed". -/
  | onlyBinary : PErr
  /-- `parse_attachment`: "cannot have VALUE without ENCODING". -/
  | noEncoding : PErr
  /-- `parse_attachment`: "only BASE64 encoding is allowed". -/
  | onlyBase64 : PErr
  /-- `values::Text`: "semicolon should be escaped in text". -/
  | semicolonInText : PErr
  /-- `values::Text`: "unexpected character after escape ('\\')". -/
  | badEscape : PErr
  /-- `GeoLocation::from_str`: "expected ';'". -/
  | geoNoSemicolon : PErr
  /-- Model boundary: a value delegated to an external crate was rejected. -/
  | badValue (s : Str) : PErr
  /-- `Range::parse_value`: "expected THISANDFUTURE, found other". -/
  | expectedThisAndFuture (s : Str) : PErr
  /-- `EventBuilder::set_end`: "expected 0..1 of DTEND | DURATION, found at least 2". -/
  | expectedEnd01 : PErr
deriving DecidableEq, Repr

/-! ## Embeddings of `parser/helpers.rs` (numeric sub-parsers) -/

/-- Model of `helpers::tag`: strip a literal prefix or fail. -/
def tag (t : Str) (input : Str) : Except PErr (Str × Str) :=
  if t.isPrefixOf input then .ok (input.drop t.length, t)
  else .error (.tagErr t)

/-- Consume exactly `n` characters, each satisfying `pred` (first phase of
`take_while_m_n`); returns `(taken, rest)`. -/
def takeN (pred : Char → Bool) : Nat → Str → Option (Str × Str)
  | 0, l => some ([], l)
  | _ + 1, [] => none
  | n + 1, c :: cs =>
    if pred c then (takeN pred n cs).map (fun p => (c :: p.1, p.2)) else none

/-- Consume at most `n` further characters while `pred` holds (second phase of
`take_while_m_n`); returns `(taken, rest)`. -/
def takeAtMost (pred : Char → Bool) : Nat → Str → Str × Str
  | 0, l => ([], l)
  | _ + 1, [] => ([], [])
  | n + 1, c :: cs =>
    if pred c then
      let p := takeAtMost pred n cs
      (c :: p.1, p.2)
    else ([], c :: cs)

/-- Model of `helpers::take_while_m_n`: `mn` mandatory matches then up to
`mx - mn` further ones; like the source it returns `(rest, matched)`. -/
def take_while_m_n (mn mx : Nat) (pred : Char → Bool) (input : Str) :
    Except PErr (Str × Str) :=
  match takeN pred mn input with
  | none => .error (.takeWhileErr mn mx)
  | some (t1, r1) =>
    let p := takeAtMost pred (mx - mn) r1
    .ok (p.2, t1 ++ p.1)

/-- Model of Rust `str::parse::<uN>` for an unsigned type of capacity `cap`
(`cap = 2^bits`): optional leading `+`, then one or more ASCII digits and
nothing else; a value reaching `cap` overflows, which is an error. -/
def rustParseNat (cap : Nat) (s : Str) : Except PErr Nat :=
  let digits := if s.head? = some '+' then s.tail else s
  if digits.isEmpty then .error .parseIntErr
  else if digits.all Char.isDigit then
    if decValue digits < cap then .ok (decValue digits) else .error .parseIntErr
  else .error .parseIntErr

/-- Model of `helpers::_1or2_digit_int` (parses into `u8`). -/
def _1or2_digit_int (ty : Str) (mn mx : Nat) (input : Str) :
    Except PErr (Str × Nat) :=
  match take_while_m_n 1 2 Char.isDigit input with
  | .error e => .error e
  | .ok (input, val) =>
    match rustParseNat 256 val with
    | .error e => .error e
    | .ok v =>
      if v < mn ∨ mx < v then .error (.intOutOfRange ty mn mx v)
      else .ok (input, v)

/-- Model of `helpers::_1to4_digit_int` (parses into `u16`). -/
def _1to4_digit_int (ty : Str) (mn mx : Nat) (input : Str) :
    Except PErr (Str × Nat) :=
  match take_while_m_n 1 4 Char.isDigit input with
  | .error e => .error e
  | .ok (input, val) =>
    match rustParseNat 65536 val with
    | .error e => .error e
    | .ok v =>
      if v < mn ∨ mx < v then .error (.intOutOfRange ty mn mx v)
      else .ok (input, v)

/-- Model of `helpers::take_digit`. -/
def take_digit (input : Str) : Option (Str × Char) :=
  match input with
  | c :: rest => if c.isDigit then some (rest, c) else none
  | [] => none

/-- Accumulation loop of `helpers::parse_u32` (`checked_mul`/`checked_add`
against the `u32` capacity; overflow is an error). -/
def parse_u32_loop (number : Nat) : Str → Except PErr (Str × Nat)
  | [] => .ok ([], number)
  | c :: rest =>
    if c.isDigit then
      let n := number * 10 + (c.toNat - 48)
      if n < 4294967296 then parse_u32_loop n rest else .error .overflowErr
    else .ok (c :: rest, number)

/-- Model of `helpers::parse_u32`: `Ok(None)` when the input starts with no
digit, otherwise the longest digit prefix as a `u32`. -/
def parse_u32 (input : Str) : Except PErr (Option (Str × Nat)) :=
  match take_digit input with
  | none => .ok none
  | some (rest, ch) => (parse_u32_loop (ch.toNat - 48) rest).map some

/-! ## Scalar value types of `types/mod.rs` -/

/-- `types::Date` (`full_year : u16`, `month : u8`, `day : u8`). -/
structure Date where
  full_year : Nat
  month : Nat
  day : Nat
deriving DecidableEq, Repr

/-- The `max_day` computation inside `Date::parse` (29/28 for February by the
`year % 4 == 0` leap rule, 30 for Apr/Jun/Sep/Nov, 31 otherwise). -/
def max_day (leap_year : Bool) (month : Nat) : Nat :=
  if month = 2 then (if leap_year then 29 else 28)
  else if month = 4 ∨ month = 6 ∨ month = 9 ∨ month = 11 then 30
  else 31

/-- Model of `Date::parse`. -/
def Date.parse (input : Str) : Except PErr (Str × Date) :=
  match _1to4_digit_int "year".toList 0 65535 input with
  | .error e => .error e
  | .ok (input, full_year) =>
    let leap_year := full_year % 4 == 0
    match _1or2_digit_int "month".toList 1 12 input with
    | .error e => .error e
    | .ok (input, month) =>
      match _1or2_digit_int "day".toList 1 (max_day leap_year month) input with
      | .error e => .error e
      | .ok (input, day) => .ok (input, ⟨full_year, month, day⟩)

/-- Model of `Display for Date`: `write!("{:04}{:02}{:02}", ...)`. -/
def Date.display (d : Date) : Str :=
  padZeros 4 (decDigits d.full_year) ++ padZeros 2 (decDigits d.month) ++
    padZeros 2 (decDigits d.day)

/-- `types::Time`. -/
structure Time where
  hour : Nat
  minute : Nat
  second : Nat
  utc : Bool
deriving DecidableEq, Repr

/-- Model of `str::split_at_checked` at a character index. -/
def splitAtChecked (n : Nat) (s : Str) : Option (Str × Str) :=
  if n ≤ s.length then some (s.take n, s.drop n) else none

/-- Model of `types::time_hour`. -/
def time_hour (input : Str) : Except PErr (Str × Nat) :=
  match splitAtChecked 2 input with
  | none => .error .expectedDigits
  | some (hour, rest) =>
    match rustParseNat 256 hour with
    | .error e => .error e
    | .ok h =>
      if 24 ≤ h then .error (.intOutOfRange "hour".toList 0 23 h)
      else .ok (rest, h)

/-- Model of `types::time_minute` (note the source reports the bound as 60). -/
def time_minute (input : Str) : Except PErr (Str × Nat) :=
  match splitAtChecked 2 input with
  | none => .error .expectedDigits
  | some (minute, rest) =>
    match rustParseNat 256 minute with
    | .error e => .error e
    | .ok m =>
      if 60 ≤ m then .error (.intOutOfRange "minute".toList 0 60 m)
      else .ok (rest, m)

/-- Model of `types::time_second` (`include_leap` admits 60). -/
def time_second (include_leap : Bool) (input : Str) : Except PErr (Str × Nat) :=
  match splitAtChecked 2 input with
  | none => .error .expectedDigits
  | some (seconds, rest) =>
    match rustParseNat 256 seconds with
    | .error e => .error e
    | .ok s =>
      if include_leap then
        if 61 ≤ s then .error (.intOutOfRange "seconds".toList 0 60 s)
        else .ok (rest, s)
      else
        if 60 ≤ s then .error (.intOutOfRange "seconds".toList 0 59 s)
        else .ok (rest, s)

/-- Model of `Time::parse`. -/
def Time.parse (input : Str) : Except PErr (Str × Time) :=
  match time_hour input with
  | .error e => .error e
  | .ok (input, hour) =>
    match time_minute input with
    | .error e => .error e
    | .ok (input, minute) =>
      match time_second true input with
      | .error e => .error e
      | .ok (input, second) =>
        match input with
        | 'Z' :: rest => .ok (rest, ⟨hour, minute, second, true⟩)
        | _ => .ok (input, ⟨hour, minute, second, false⟩)

/-- Model of `Display for Time`: zero-padded fields, `Z` iff UTC. -/
def Time.display (t : Time) : Str :=
  padZeros 2 (decDigits t.hour) ++ padZeros 2 (decDigits t.minute) ++
    padZeros 2 (decDigits t.second) ++ (if t.utc then ['Z'] else [])

/-- `types::DateTime`. -/
structure DateTime where
  date : Date
  time : Time
deriving DecidableEq, Repr

/-- Model of `DateTime::parse` (`Date`, literal `T`, `Time`). -/
def DateTime.parse (input : Str) : Except PErr (Str × DateTime) :=
  match Date.parse input with
  | .error e => .error e
  | .ok (input, date) =>
    match tag "T".toList input with
    | .error e => .error e
    | .ok (input, _) =>
      match Time.parse input with
      | .error e => .error e
      | .ok (input, time) => .ok (input, ⟨date, time⟩)

/-- Model of `Display for DateTime`: `write!("{}T{}", date, time)`. -/
def DateTime.display (dt : DateTime) : Str :=
  dt.date.display ++ 'T' :: dt.time.display

/-- `types::DateOrDateTime` (variant order as declared: `Date`, `DateTime`). -/
inductive DateOrDateTime where
  | date (d : Date)
  | dateTime (dt : DateTime)
deriving DecidableEq, Repr

/-- Model of `DateOrDateTime::parse` (a date, then time iff a `T` follows). -/
def DateOrDateTime.parse (input : Str) : Except PErr (Str × DateOrDateTime) :=
  match Date.parse input with
  | .error e => .error e
  | .ok (input, d) =>
    match input with
    | 'T' :: _ =>
      match tag "T".toList input with
      | .error e => .error e
      | .ok (input, _) =>
        match Time.parse input with
        | .error e => .error e
        | .ok (input, t) => .ok (input, .dateTime ⟨d, t⟩)
    | _ => .ok (input, .date d)

/-! Derived `Ord` models (Rust `#[derive(PartialOrd, Ord)]` compares fields
in declaration order, and enum variants by declaration order first). -/

/-- Rust derived `Ord` on `bool`: `false < true`. -/
def cmpBool (a b : Bool) : Ordering :=
  match a, b with
  | false, false => .eq
  | false, true => .lt
  | true, false => .gt
  | true, true => .eq

/-- Derived `Ord` on `Date` (lexicographic: year, month, day). -/
def Date.cmp (a b : Date) : Ordering :=
  (compare a.full_year b.full_year).then
    ((compare a.month b.month).then (compare a.day b.day))

/-- Derived `Ord` on `Time` (lexicographic: hour, minute, second, utc). -/
def Time.cmp (a b : Time) : Ordering :=
  (compare a.hour b.hour).then ((compare a.minute b.minute).then
    ((compare a.second b.second).then (cmpBool a.utc b.utc)))

/-- Derived `Ord` on `DateTime` (lexicographic: date, time). -/
def DateTime.cmp (a b : DateTime) : Ordering :=
  (Date.cmp a.date b.date).then (Time.cmp a.time b.time)

/-- Derived `Ord` on `DateOrDateTime`: variants compare by declaration order
(`Date` before `DateTime`), fields lexicographically within a variant. -/
def DateOrDateTime.cmp : DateOrDateTime → DateOrDateTime → Ordering
  | .date a, .date b => Date.cmp a b
  | .date _, .dateTime _ => .lt
  | .dateTime _, .date _ => .gt
  | .dateTime a, .dateTime b => DateTime.cmp a b

/-! ## Duration (`types/mod.rs`) -/

/-- `types::DurationKind`. -/
inductive DurationKind where
  | weeks (w : Nat)
  | dateTime (days hours minutes seconds : Nat)
deriving DecidableEq, Repr

/-- `types::Duration`. -/
structure Duration where
  negative : Bool
  kind : DurationKind
deriving DecidableEq, Repr

/-- Model of the inner `parse_secs` of `DurationKind::parse`: a number
followed by `S`, or leave `seconds` unchanged and backtrack. -/
def parse_secs (seconds : Nat) (input : Str) : Except PErr (Str × Nat) :=
  match parse_u32 input with
  | .error e => .error e
  | .ok none => .ok (input, seconds)
  | .ok (some (i, num)) =>
    match i with
    | 'S' :: rest => .ok (rest, num)
    | _ => .ok (input, seconds)

/-- Model of the inner `parse_mins_secs` of `DurationKind::parse`; returns
`(input, minutes, seconds)`, both components defaulting to 0. -/
def parse_mins_secs (input : Str) : Except PErr (Str × Nat × Nat) :=
  match parse_u32 input with
  | .error e => .error e
  | .ok none => .ok (input, 0, 0)
  | .ok (some (i, num)) =>
    match i with
    | 'M' :: rest =>
      match parse_secs 0 rest with
      | .error e => .error e
      | .ok (i2, secs) => .ok (i2, num, secs)
    | _ => .ok (input, 0, 0)

/-- Tail of `DurationKind::parse` after the day section: like the source it
unconditionally requires the literal `T` and then at least one of the
`H`/`M`/`S` components. -/
def DurationKind.parseTime (days : Nat) (input : Str) :
    Except PErr (Str × DurationKind) :=
  match tag "T".toList input with
  | .error e => .error e
  | .ok (input, _) =>
    match parse_u32 input with
    | .error e => .error e
    | .ok none => .error .expectedInt
    | .ok (some (i, num)) =>
      match i with
      | 'H' :: rest =>
        match parse_mins_secs rest with
        | .error e => .error e
        | .ok (input, minutes, seconds) =>
          .ok (input, .dateTime days num minutes seconds)
      | 'M' :: rest =>
        match parse_secs 0 rest with
        | .error e => .error e
        | .ok (input, seconds) => .ok (input, .dateTime days 0 num seconds)
      | 'S' :: rest => .ok (rest, .dateTime days 0 0 num)
      | _ => .error .expectedHMS

/-- Model of `DurationKind::parse`: week form `<int>W`, or day count `<int>D`
(or none when the input starts with `T`) followed by the time section. -/
def DurationKind.parse (input : Str) : Except PErr (Str × DurationKind) :=
  match input with
  | 'T' :: _ => DurationKind.parseTime 0 input
  | _ =>
    match parse_u32 input with
    | .error e => .error e
    | .ok none => .error .expectedIntOrT
    | .ok (some (i, num)) =>
      match i with
      | 'W' :: rest => .ok (rest, .weeks num)
      | 'D' :: rest => DurationKind.parseTime num rest
      | _ => .error .expectedWorD

/-- Model of `types::opt_sign_is_negative`. -/
def opt_sign_is_negative (input : Str) : Str × Bool :=
  match input with
  | '+' :: rest => (rest, false)
  | '-' :: rest => (rest, true)
  | _ => (input, false)

/-- Model of `Duration::parse`: optional sign, literal `P`, then the kind. -/
def Duration.parse (input : Str) : Except PErr (Str × Duration) :=
  let p := opt_sign_is_negative input
  match tag "P".toList p.1 with
  | .error e => .error e
  | .ok (input, _) =>
    match DurationKind.parse input with
    | .error e => .error e
    | .ok (input, kind) => .ok (input, ⟨p.2, kind⟩)

/-! ## Names (`types/name.rs`, `parser/lexer.rs`) -/

/-- Model of `helpers::check_iana_token`: every character alphanumeric or `-`.
The source uses Rust `char::is_alphanumeric` (Unicode); all inputs in this
development are ASCII, where it coincides with `Char.isAlphanum`. -/
def check_iana_token (input : Str) : Except PErr Unit :=
  if input.all (fun ch => ch.isAlphanum || ch == '-') then .ok ()
  else .error (.notAValidName input)

/-- `types::XName` (`vendor : Option<[u8; 3]>`, `value`). -/
structure XName where
  vendor : Option (Char × Char × Char)
  value : Str
deriving DecidableEq, Repr

/-- Model of `XName::parse` (input is already past the `X-` marker): three
ASCII alphanumerics followed by `-` form a vendor id, the remainder must be a
valid token; otherwise the whole input must be a valid token. -/
def XName.parse (input : Str) : Except PErr XName :=
  match input with
  | a :: b :: c :: '-' :: rest =>
    if a.isAlphanum && b.isAlphanum && c.isAlphanum then
      match check_iana_token rest with
      | .error e => .error e
      | .ok _ => .ok ⟨some (a, b, c), rest⟩
    else
      match check_iana_token input with
      | .error e => .error e
      | .ok _ => .ok ⟨none, input⟩
  | _ =>
    match check_iana_token input with
    | .error e => .error e
    | .ok _ => .ok ⟨none, input⟩

/-- `types::Name` (`XName` or registered/IANA). -/
inductive Name where
  | xname (x : XName)
  | iana (value : Str)
deriving DecidableEq, Repr

/-- Model of `Name::parse`: strip a leading `X-` and parse an extension name,
otherwise validate the whole input as a registered token. -/
def Name.parse (input : Str) : Except PErr Name :=
  match input with
  | 'X' :: '-' :: rest =>
    match XName.parse rest with
    | .error e => .error e
    | .ok x => .ok (.xname x)
  | _ =>
    match check_iana_token input with
    | .error e => .error e
    | .ok _ => .ok (.iana input)

/-- Model of `impl PartialEq<str> for Name`, the comparison the parser uses to
dispatch property names: an `Iana` name compares by exact (case-sensitive)
string equality; an `XName` parses the other side as an extension-name body
and compares structurally. -/
def Name.eqStr (n : Name) (other : Str) : Bool :=
  match n with
  | .xname x =>
    match XName.parse other with
    | .error _ => false
    | .ok o => x == o
  | .iana nm => nm == other

/-! ## `VecOne` (`types/vec_one.rs`) -/

/-- `types::VecOne`: a vector with at least one element. -/
structure VecOne (α : Type) where
  first : α
  rest : List α
deriving DecidableEq, Repr

/-- Model of `VecOne::push` (appends to `rest`). -/
def VecOne.push {α : Type} (v : VecOne α) (val : α) : VecOne α :=
  ⟨v.first, v.rest ++ [val]⟩

/-- Model of `VecOne::extend` (appends a sequence to `rest`). -/
def VecOne.extendList {α : Type} (v : VecOne α) (vals : List α) : VecOne α :=
  ⟨v.first, v.rest ++ vals⟩

/-- Model of `VecOne::get_single`: the sole element, or an error naming the
actual count. -/
def VecOne.get_single {α : Type} (v : VecOne α) : Except PErr α :=
  if v.rest.isEmpty then .ok v.first
  else .error (.expectedSingle (v.rest.length + 1))

/-! ## String-splitting helpers (`parser/helpers.rs`) -/

/-- Model of `helpers::try_split_once`: split at the first occurrence of the
delimiter (`none` models the source returning the unsplit original). -/
def try_split_once (delim : Char) : Str → Option (Str × Str)
  | [] => none
  | c :: rest =>
    if c = delim then some ([], rest)
    else
      match try_split_once delim rest with
      | none => none
      | some p => some (c :: p.1, p.2)

/-- Model of `helpers::split_once`: like `try_split_once` but a missing
delimiter puts everything in the first component. -/
def split_once (delim : Char) (input : Str) : Str × Str :=
  match try_split_once delim input with
  | some p => p
  | none => (input, [])

/-- Scanning loop of `helpers::split_once_outside_quotes`: a `"` toggles the
in-quote flag; the test character only splits while outside quotes. -/
def splitOutsideQuotesGo (test_ch : Char) (inside_quote : Bool) :
    Str → Option (Str × Str)
  | [] => none
  | c :: rest =>
    if c = '"' then
      match splitOutsideQuotesGo test_ch (!inside_quote) rest with
      | none => none
      | some p => some (c :: p.1, p.2)
    else if c = test_ch && !inside_quote then some ([], rest)
    else
      match splitOutsideQuotesGo test_ch inside_quote rest with
      | none => none
      | some p => some (c :: p.1, p.2)

/-- Model of `helpers::split_once_outside_quotes`. -/
def split_once_outside_quotes (input : Str) (test_ch : Char) : Str × Str :=
  match splitOutsideQuotesGo test_ch false input with
  | some p => p
  | none => (input, [])

/-- Model of `helpers::safe_char`: no control characters, none of the four
structural delimiters. -/
def safe_char (c : Char) : Except PErr Unit :=
  if isControlChar c then .error .controlChar
  else if c = '"' ∨ c = ';' ∨ c = ':' ∨ c = ',' then .error (.charNotAllowed c)
  else .ok ()

/-- Model of `helpers::qsafe_char`: no control characters, no `"`. -/
def qsafe_char (c : Char) : Except PErr Unit :=
  if isControlChar c then .error .controlChar
  else if c = '"' then .error .quoteNotAllowed
  else .ok ()

/-- Model of `helpers::check_param_text`: every character safe. -/
def check_param_text : Str → Except PErr Unit
  | [] => .ok ()
  | c :: rest =>
    match safe_char c with
    | .error e => .error e
    | .ok _ => check_param_text rest

/-- Every character of the inner span of a quoted string must be qsafe. -/
def check_qsafe_all : Str → Except PErr Unit
  | [] => .ok ()
  | c :: rest =>
    match qsafe_char c with
    | .error e => .error e
    | .ok _ => check_qsafe_all rest

/-- Model of `helpers::quoted_string`: first and last characters must be `"`,
the inner span qsafe; the enclosing quotes are stripped. -/
def quoted_string (input : Str) : Except PErr Str :=
  match input with
  | '"' :: rest =>
    match rest.getLast? with
    | none => .error .quotedEnd
    | some last =>
      if last = '"' then
        match check_qsafe_all rest.dropLast with
        | .error e => .error e
        | .ok _ => .ok rest.dropLast
      else .error .quotedEnd
  | _ => .error .quotedStart

/-- Model of `helpers::param_value`: a quoted string when it starts with `"`,
otherwise unquoted parameter text. -/
def param_value (input : Str) : Except PErr Str :=
  match input with
  | '"' :: _ => quoted_string input
  | _ =>
    match check_param_text input with
    | .error e => .error e
    | .ok _ => .ok input

/-! ## Parameter map (`parser/param_map.rs`)

The source stores parameters in two `HashMap`s (registered vs extension
keys); the model uses association lists with the same lookup/update semantics.
`HashMap` iteration order is unspecified in Rust; the only iteration the
parser performs (`first_iana_param`) is used solely for an emptiness test. -/

/-- `parser::ParamMap`. -/
structure ParamMap where
  iana : List (Str × VecOne Str)
  extend : List (XName × VecOne Str)
deriving DecidableEq, Repr

/-- The empty parameter map (`ParamMap::default`). -/
def ParamMap.empty : ParamMap := ⟨[], []⟩

/-- `HashMap` update as `ParamMap::add_values` performs it: push `first` (and
then extend with the remaining values) onto an existing entry, or insert a
fresh `VecOne`. -/
def addValuesAssoc {κ : Type} [DecidableEq κ] :
    List (κ × VecOne Str) → κ → Str → List Str → List (κ × VecOne Str)
  | [], k, first, vrest => [(k, ⟨first, vrest⟩)]
  | (k2, v) :: t, k, first, vrest =>
    if k2 = k then (k2, (v.push first).extendList vrest) :: t
    else (k2, v) :: addValuesAssoc t k first vrest

/-- Model of `ParamMap::add_values` (an empty value sequence is a no-op). -/
def ParamMap.add_values (m : ParamMap) (name : Name) (values : List Str) :
    ParamMap :=
  match values with
  | [] => m
  | first :: vrest =>
    match name with
    | .xname x => { m with extend := addValuesAssoc m.extend x first vrest }
    | .iana k => { m with iana := addValuesAssoc m.iana k first vrest }

/-- `HashMap::remove` on an association list. -/
def assocRemove {κ : Type} [DecidableEq κ] :
    List (κ × VecOne Str) → κ → Option (VecOne Str) × List (κ × VecOne Str)
  | [], _ => (none, [])
  | (k2, v) :: t, k =>
    if k2 = k then (some v, t)
    else
      let p := assocRemove t k
      (p.1, (k2, v) :: p.2)

/-- Model of `ParamMap::take`: remove and return the value list under a key. -/
def ParamMap.take (m : ParamMap) (key : Name) :
    Option (VecOne Str) × ParamMap :=
  match key with
  | .xname x =>
    let p := assocRemove m.extend x
    (p.1, { m with extend := p.2 })
  | .iana k =>
    let p := assocRemove m.iana k
    (p.1, { m with iana := p.2 })

/-- Value-list loop of `ParamMap::parse_param`: split on `,` outside quotes,
each piece a `param_value`.  Fuel: one unit per input character suffices. -/
def parseParamValues : Nat → Str → Except PErr (List Str)
  | 0, _ => .error .fuel
  | fuel + 1, input =>
    if input.isEmpty then .ok []
    else
      let p := split_once_outside_quotes input ','
      match param_value p.1 with
      | .error e => .error e
      | .ok v =>
        match parseParamValues fuel p.2 with
        | .error e => .error e
        | .ok vs => .ok (v :: vs)

/-- Model of `ParamMap::parse_param`: split once on `=`, parse the name, then
the comma-separated value list. -/
def ParamMap.parse_param (m : ParamMap) (input : Str) : Except PErr ParamMap :=
  match try_split_once '=' input with
  | none => .error (.paramNoEq input)
  | some (nm, rest) =>
    match Name.parse nm with
    | .error e => .error e
    | .ok name =>
      match parseParamValues (rest.length + 1) rest with
      | .error e => .error e
      | .ok values => .ok (m.add_values name values)

/-- Model of `Line::first_iana_param`: some key of the IANA map, if any (the
source's `HashMap` iteration order is unspecified; callers only test
presence). -/
def firstIanaParam? (m : ParamMap) : Option Str :=
  m.iana.head?.map (fun p => p.1)

/-! ## Content lines (`parser/line.rs`) -/

/-- `parser::line::Line`: one parsed logical line. -/
structure Line where
  name : Name
  params : ParamMap
  value : Str
deriving DecidableEq, Repr

/-- Parameter-section loop of `Line::parse`: repeatedly split on `;` outside
quotes and feed `parse_param`.  Fuel: one unit per character suffices. -/
def parseParams : Nat → ParamMap → Str → Except PErr ParamMap
  | 0, _, _ => .error .fuel
  | fuel + 1, m, input =>
    if input.isEmpty then .ok m
    else
      let p := split_once_outside_quotes input ';'
      match m.parse_param p.1 with
      | .error e => .error e
      | .ok m2 => parseParams fuel m2 p.2

/-- Model of `Line::parse`: split once on the first `:` (error when absent),
split the prefix once on `;` into name and parameter section, parse both. -/
def Line.parse (input : Str) : Except PErr Line :=
  match try_split_once ':' input with
  | none => .error (.malformedLine input)
  | some (pre, value) =>
    let p := split_once ';' pre
    match Name.parse p.1 with
    | .error e => .error e
    | .ok name =>
      match parseParams (p.2.length + 1) ParamMap.empty p.2 with
      | .error e => .error e
      | .ok params => .ok ⟨name, params, value⟩

/-! ## Line unfolding (`parser/line.rs`, `LineIter`) -/

/-- Split at the first `\r\n`, or `none` when there is none (the single-split
step of `LineIter::next`, which splits on `"\r\n"`). -/
def splitCRLF : Str → Option (Str × Str)
  | [] => none
  | c :: rest =>
    if c = '\r' ∧ rest.head? = some '\n' then some ([], rest.tail)
    else
      match splitCRLF rest with
      | none => none
      | some p => some (c :: p.1, p.2)

/-- Continuation-joining loop of `LineIter::next`: `input` starts with the
continuation space; each segment is appended without its leading space until a
segment does not start with a space (or input ends).  Returns the finished
logical line and the remaining document.  Fuel: a unit per character. -/
def unfoldCont : Nat → Str → Str → Str × Str
  | 0, acc, input => (acc, input)
  | fuel + 1, acc, input =>
    match splitCRLF input with
    | none => (acc ++ input.drop 1, [])
    | some (seg, rest) =>
      if rest.head? = some ' ' then unfoldCont fuel (acc ++ seg.drop 1) rest
      else (acc ++ seg.drop 1, rest)

/-- Model of `LineIter::next`: the next logical (unfolded) line and the rest
of the document; `none` at end of input.  A last line without a terminator is
yielded as-is; a lone trailing empty segment ends the iteration. -/
def lineIterNext (input : Str) : Option (Str × Str) :=
  match splitCRLF input with
  | none => if input.isEmpty then none else some (input, [])
  | some (first, rest) =>
    if rest.head? = some ' ' then some (unfoldCont (rest.length + 1) first rest)
    else some (first, rest)

/-! ## Lexer (`parser/lexer.rs`)

The source interposes a one-line cache (`ensure_cache`) between `LineIter`
and the consumers; since parsing is pure and every error aborts the document,
caching is unobservable and the model threads the raw remaining input. -/

/-- Model of `Lexer::take_next` (and of `next`/`is_empty`, which differ only
in consuming): unfold the next logical line and parse it. -/
def take_next (input : Str) : Except PErr (Option (Line × Str)) :=
  match lineIterNext input with
  | none => .ok none
  | some (l, rest) =>
    match Line.parse l with
    | .error e => .error e
    | .ok line => .ok (some (line, rest))

/-- Depth-counting loop of `Lexer::skip_current`. -/
def skipCurrentGo : Nat → Nat → Str → Except PErr Str
  | 0, _, _ => .error .fuel
  | fuel + 1, depth, input =>
    match take_next input with
    | .error e => .error e
    | .ok none => .error .unexpectedEOF
    | .ok (some (line, rest)) =>
      let depth :=
        if line.name.eqStr "BEGIN".toList then depth + 1
        else if line.name.eqStr "END".toList then depth - 1
        else depth
      if depth = 0 then .ok rest
      else skipCurrentGo fuel depth rest

/-- Model of `Lexer::skip_current`: assuming a `BEGIN` line was just consumed,
consume until the matching depth-zero `END`. -/
def skip_current (input : Str) : Except PErr Str :=
  skipCurrentGo (input.length + 1) 1 input

/-! ## Text values (`values.rs`, `impl TryFrom<&str> for Text`) -/

/-- Model of `VecOne::current().push(c)` as the `Text` parser uses it: append
a character to the element currently being built (the last one). -/
def appendLastStr : List Str → Char → List Str
  | [], _ => []
  | [x], c => [x ++ [c]]
  | x :: xs, c => x :: appendLastStr xs c

/-- Append a character to the current (last) element. -/
def VecOne.appendCurrent (v : VecOne Str) (c : Char) : VecOne Str :=
  match v with
  | ⟨first, []⟩ => ⟨first ++ [c], []⟩
  | ⟨first, r :: rs⟩ => ⟨first, appendLastStr (r :: rs) c⟩

/-- Model of `VecOne::start_new`: begin a fresh empty element. -/
def VecOne.startNew (v : VecOne Str) : VecOne Str := ⟨v.first, v.rest ++ [[]]⟩

/-- Character loop of `impl TryFrom<&str> for Text`: `\\`, `\,`, `\;` map to
the literal character, `\N`/`\n` to a newline, any other escape errors; an
unescaped `,` starts a new element; a bare `;` errors; everything else is
appended to the current element. -/
def textGo : Str → VecOne Str → Except PErr (VecOne Str)
  | [], v => .ok v
  | '\\' :: rest, v =>
    match rest with
    | c2 :: rest2 =>
      if c2 = '\\' ∨ c2 = ',' ∨ c2 = ';' then textGo rest2 (v.appendCurrent c2)
      else if c2 = 'N' ∨ c2 = 'n' then textGo rest2 (v.appendCurrent '\n')
      else .error .badEscape
    | [] => .error .badEscape
  | ',' :: rest, v => textGo rest v.startNew
  | ';' :: _, _ => .error .semicolonInText
  | c :: rest, v => textGo rest (v.appendCurrent c)

/-- Model of `Text::try_from(&str)`: the comma-separated, escape-decoded
element list (starting from one empty element). -/
def Text.tryFrom (input : Str) : Except PErr (VecOne Str) :=
  textGo input ⟨[], []⟩

/-! ## Calendar data model (`lib.rs`)

Fields whose values the source validates through external crates (`uriparse`
URIs, `oxilangtag` language tags, `mediatype` media types, `base64` blobs,
`f64` floats) are stored as raw strings: those crates are not part of this
repository, no claim depends on them, and the spec (§4.6, §6) only requires
that such values be handed to an external validator. -/

/-- `CalScale` (default Gregorian, or another validated token). -/
inductive CalScale where
  | gregorian
  | other (s : Str)
deriving DecidableEq, Repr

/-- `Class` (classification). -/
inductive Class where
  | pub
  | priv
  | confidential
  | iana (s : Str)
  | xname (x : XName)
deriving DecidableEq, Repr

/-- `EventStatus`. -/
inductive EventStatus where
  | tentative
  | confirmed
  | cancelled
deriving DecidableEq, Repr

/-- `TimeTransparency` (default Opaque). -/
inductive TimeTransparency where
  | opaq
  | transparent
deriving DecidableEq, Repr

/-- `AnnotatedText`: text with optional language and alternate representation
(both raw: external-crate validated in the source). -/
structure AnnotatedText where
  lang : Option Str
  altrep : Option Str
  text : Str
deriving DecidableEq, Repr

/-- `params::TimeZoneIdentifier`: optional leading `/` (the source field is
named `prefix`, which Lean reserves), then parameter text. -/
structure TimeZoneIdentifier where
  leadingSlash : Bool
  value : Str
deriving DecidableEq, Repr

/-- `RecurrenceId` (the `range` parameter carries no data: only
`THISANDFUTURE` is accepted). -/
structure RecurrenceId where
  range : Option Unit
  timezone_id : Option TimeZoneIdentifier
  value : DateOrDateTime
deriving DecidableEq, Repr

/-- `EventEnd`: an explicit end date(-time) or a duration. -/
inductive EventEnd where
  | dateTime (value : DateOrDateTime) (timezone_id : Option TimeZoneIdentifier)
  | duration (d : Duration)
deriving DecidableEq, Repr

/-- `types::Data`: an attachment body, URI or base64 blob (both raw here). -/
inductive Data where
  | uri (s : Str)
  | blob (s : Str)
deriving DecidableEq, Repr

/-- `Attachment`. -/
structure Attachment where
  fmt_type : Option Str
  data : Data
deriving DecidableEq, Repr

/-- `Organizer` (addresses raw: URI-validated externally in the source). -/
structure Organizer where
  common_name : Option Str
  dir : Option Str
  sent_by : Option Str
  lang : Option Str
  value : Str
deriving DecidableEq, Repr

/-- `Attendee` (all parameter payloads raw, see the section comment). -/
structure Attendee where
  cutype : Option Str
  group_or_list_members : List Str
  role : Option Str
  participation_status : Option Str
  rsvp : Option Str
  delegated_to : List Str
  delegated_from : List Str
  sent_by : Option Str
  common_name : Option Str
  dir : Option Str
  lang : Option Str
deriving DecidableEq, Repr

/-- `Categories`. -/
structure Categories where
  lang : Option Str
  values : VecOne Str
deriving DecidableEq, Repr

/-- `Comment`. -/
structure Comment where
  lang : Option Str
  altrep : Option Str
  value : Str
deriving DecidableEq, Repr

/-- `Contact`. -/
structure Contact where
  lang : Option Str
  altrep : Option Str
  value : Str
deriving DecidableEq, Repr

/-- `ExceptionDateTimes`. -/
structure ExceptionDateTimes where
  timezone_id : Option TimeZoneIdentifier
  values : VecOne DateOrDateTime
deriving DecidableEq, Repr

/-- `GeoLocation` (latitude/longitude raw: `f64` in the source). -/
structure GeoLocation where
  latitude : Str
  longitude : Str
deriving DecidableEq, Repr

/-- `types::Priority` (a `u8` clamped to at most 9 by `Priority::new`). -/
structure Priority where
  value : Nat
deriving DecidableEq, Repr

/-- `Event` (fields as in `lib.rs`; the source field `class` is a reserved
word in Lean and appears here as `classification`). -/
structure Event where
  classification : Class
  created : Option DateTime
  last_modified : Option DateTime
  description : Option AnnotatedText
  start : Option DateOrDateTime
  location : Option AnnotatedText
  geo_location : Option GeoLocation
  organizer : Option Organizer
  priority : Option Priority
  timestamp : Option DateTime
  sequence : Option Nat
  status : Option EventStatus
  summary : Option AnnotatedText
  time_transparency : TimeTransparency
  uid : Str
  recurrence_id : Option RecurrenceId
  eventEnd : Option EventEnd
  attachments : List Attachment
  attendees : List Attendee
  categories : List Categories
  comments : List Comment
  contacts : List Contact
  exception_dates : List ExceptionDateTimes
deriving DecidableEq, Repr

/-- `Calendar` (the root aggregate). -/
structure Calendar where
  events : List Event
  prod_id : Str
  cal_scale : CalScale
  method : Option Str
deriving DecidableEq, Repr

/-! ## Property handlers (`parser/mod.rs`) -/

/-- Model of `parse_prodid`: no IANA parameter allowed; the raw value. -/
def parse_prodid (input : Line) : Except PErr Str :=
  match firstIanaParam? input.params with
  | some p => .error (.unexpectedParam p)
  | none => .ok input.value

/-- Model of `parse_version`: no IANA parameter allowed; the value must be
exactly `2.0`. -/
def parse_version (input : Line) : Except PErr Unit :=
  match firstIanaParam? input.params with
  | some p => .error (.unexpectedParam p)
  | none =>
    if input.value = "2.0".toList then .ok ()
    else .error .onlyVersion20

/-- Model of `parse_cal_scale`: no IANA parameter allowed; `GREGORIAN` or
another valid token. -/
def parse_cal_scale (input : Line) : Except PErr CalScale :=
  match firstIanaParam? input.params with
  | some p => .error (.unexpectedParam p)
  | none =>
    if input.value = "GREGORIAN".toList then .ok .gregorian
    else
      match check_iana_token input.value with
      | .error e => .error e
      | .ok _ => .ok (.other input.value)

/-- Model of `parse_class`. -/
def parse_class (input : Str) : Except PErr Class :=
  if input = "PUBLIC".toList then .ok .pub
  else if input = "PRIVATE".toList then .ok .priv
  else if input = "CONFIDENTIAL".toList then .ok .confidential
  else
    match Name.parse input with
    | .error e => .error e
    | .ok (.xname x) => .ok (.xname x)
    | .ok (.iana s) => .ok (.iana s)

/-- Modelled from the spec: the typed parameter extraction
(`ParamMap::take_ty`) used by the event property handlers.  The `ParseParam`
trait impls the current parser revision calls are missing from the source
tree (`params.rs` belongs to an older revision without that trait), so per
§4.5 the extraction is modeled as: remove the entry under the parameter's
fixed name, require a single value for a single-valued parameter, and return
it; external-crate validation of the value (URI, language tag, media type) is
not modeled.  Returns `(extracted value, updated map)`. -/
def takeSingleParam (m : ParamMap) (name : Str) :
    Except PErr (Option Str × ParamMap) :=
  let p := m.take (.iana name)
  match p.1 with
  | none => .ok (none, p.2)
  | some v =>
    match v.get_single with
    | .error e => .error e
    | .ok s => .ok (some s, p.2)

/-- Modelled from the spec: list-valued typed parameter extraction (e.g.
`MEMBER`, `DELEGATED-TO`, `DELEGATED-FROM`), which keeps every value. -/
def takeListParam (m : ParamMap) (name : Str) :
    Option (VecOne Str) × ParamMap :=
  m.take (.iana name)

/-- Model of `helpers::opt_vec_one_to_vec`. -/
def opt_vec_one_to_vec {α : Type} (input : Option (VecOne α)) : List α :=
  match input with
  | some v => v.first :: v.rest
  | none => []

/-- Model of `parse_annotated_text`: extract `LANGUAGE` and `ALTREP`, keep
the raw value. -/
def parse_annotated_text (input : Line) : Except PErr AnnotatedText :=
  match takeSingleParam input.params "LANGUAGE".toList with
  | .error e => .error e
  | .ok (lang, m1) =>
    match takeSingleParam m1 "ALTREP".toList with
    | .error e => .error e
    | .ok (altrep, _) => .ok ⟨lang, altrep, input.value⟩

/-- Model of `parse_organizer` (`CN`, `DIR`, `SENT-BY`, `LANGUAGE`, then the
calendar-address value, which the source URI-validates externally). -/
def parse_organizer (input : Line) : Except PErr Organizer :=
  match takeSingleParam input.params "CN".toList with
  | .error e => .error e
  | .ok (cn, m1) =>
    match takeSingleParam m1 "DIR".toList with
    | .error e => .error e
    | .ok (dir, m2) =>
      match takeSingleParam m2 "SENT-BY".toList with
      | .error e => .error e
      | .ok (sent_by, m3) =>
        match takeSingleParam m3 "LANGUAGE".toList with
        | .error e => .error e
        | .ok (lang, _) => .ok ⟨cn, dir, sent_by, lang, input.value⟩

/-- Model of `parse_event_status`. -/
def parse_event_status (input : Line) : Except PErr EventStatus :=
  if input.value = "TENTATIVE".toList then .ok .tentative
  else if input.value = "CONFIRMED".toList then .ok .confirmed
  else if input.value = "CANCELLED".toList then .ok .cancelled
  else .error (.unexpectedStatus input.value)

/-- Model of `parse_time_transparency`. -/
def parse_time_transparency (input : Line) : Except PErr TimeTransparency :=
  if input.value = "OPAQUE".toList then .ok .opaq
  else if input.value = "TRANSPARENT".toList then .ok .transparent
  else .error (.unexpectedTransp input.value)

/-- Model of `params::Range::parse_value`: single value, only
`THISANDFUTURE`. -/
def parseRangeParam (m : ParamMap) : Except PErr (Option Unit × ParamMap) :=
  match takeSingleParam m "RANGE".toList with
  | .error e => .error e
  | .ok (none, m2) => .ok (none, m2)
  | .ok (some v, m2) =>
    if v = "THISANDFUTURE".toList then .ok (some (), m2)
    else .error (.expectedThisAndFuture v)

/-- Model of `params::TimeZoneIdentifier::parse_value`: optional leading `/`,
then parameter text (syntactic validation only). -/
def parseTzidParam (m : ParamMap) :
    Except PErr (Option TimeZoneIdentifier × ParamMap) :=
  match takeSingleParam m "TZID".toList with
  | .error e => .error e
  | .ok (none, m2) => .ok (none, m2)
  | .ok (some v, m2) =>
    match v with
    | '/' :: rest =>
      match check_param_text rest with
      | .error e => .error e
      | .ok _ => .ok (some ⟨true, rest⟩, m2)
    | _ =>
      match check_param_text v with
      | .error e => .error e
      | .ok _ => .ok (some ⟨false, v⟩, m2)

/-- Model of `helpers::parse_date_or_datetime`: a date-time value unless the
`VALUE` parameter says `DATE`; trailing input after the value is ignored by
the source (`let (_, v) = ...`). -/
def parse_date_or_datetime (m : ParamMap) (value : Str) :
    Except PErr (DateOrDateTime × ParamMap) :=
  match takeSingleParam m "VALUE".toList with
  | .error e => .error e
  | .ok (sel, m2) =>
    match sel with
    | some v =>
      if v = "DATE-TIME".toList then
        match DateTime.parse value with
        | .error e => .error e
        | .ok (_, dt) => .ok (.dateTime dt, m2)
      else if v = "DATE".toList then
        match Date.parse value with
        | .error e => .error e
        | .ok (_, d) => .ok (.date d, m2)
      else .error (.unexpectedValueParam v)
    | none =>
      match DateTime.parse value with
      | .error e => .error e
      | .ok (_, dt) => .ok (.dateTime dt, m2)

/-- Comma loop of `helpers::parse_date_or_datetime_list` (date-time flavor). -/
def dtListLoop : Nat → VecOne DateOrDateTime → Str →
    Except PErr (VecOne DateOrDateTime)
  | 0, _, _ => .error .fuel
  | fuel + 1, acc, input =>
    match tag ",".toList input with
    | .error _ => .ok acc
    | .ok (i, _) =>
      match DateTime.parse i with
      | .error e => .error e
      | .ok (i2, dt) => dtListLoop fuel (acc.push (.dateTime dt)) i2

/-- Comma loop of `helpers::parse_date_or_datetime_list` (date flavor). -/
def dListLoop : Nat → VecOne DateOrDateTime → Str →
    Except PErr (VecOne DateOrDateTime)
  | 0, _, _ => .error .fuel
  | fuel + 1, acc, input =>
    match tag ",".toList input with
    | .error _ => .ok acc
    | .ok (i, _) =>
      match Date.parse i with
      | .error e => .error e
      | .ok (i2, d) => dListLoop fuel (acc.push (.date d)) i2

/-- Model of `helpers::parse_date_or_datetime_list`. -/
def parse_date_or_datetime_list (m : ParamMap) (value : Str) :
    Except PErr (VecOne DateOrDateTime × ParamMap) :=
  match takeSingleParam m "VALUE".toList with
  | .error e => .error e
  | .ok (sel, m2) =>
    match sel with
    | some v =>
      if v = "DATE-TIME".toList then
        match DateTime.parse value with
        | .error e => .error e
        | .ok (i, dt) =>
          match dtListLoop (value.length + 1) ⟨.dateTime dt, []⟩ i with
          | .error e => .error e
          | .ok out => .ok (out, m2)
      else if v = "DATE".toList then
        match Date.parse value with
        | .error e => .error e
        | .ok (i, d) =>
          match dListLoop (value.length + 1) ⟨.date d, []⟩ i with
          | .error e => .error e
          | .ok out => .ok (out, m2)
      else .error (.unexpectedValueParam v)
    | none =>
      match DateTime.parse value with
      | .error e => .error e
      | .ok (i, dt) =>
        match dtListLoop (value.length + 1) ⟨.dateTime dt, []⟩ i with
        | .error e => .error e
        | .ok out => .ok (out, m2)

/-- Model of `parse_recurrence_id`. -/
def parse_recurrence_id (input : Line) : Except PErr RecurrenceId :=
  match parseRangeParam input.params with
  | .error e => .error e
  | .ok (range, m1) =>
    match parseTzidParam m1 with
    | .error e => .error e
    | .ok (tz, m2) =>
      match parse_date_or_datetime m2 input.value with
      | .error e => .error e
      | .ok (v, _) => .ok ⟨range, tz, v⟩

/-- Model of `parse_datetime_end` (the `DTEND` handler). -/
def parse_datetime_end (input : Line) : Except PErr EventEnd :=
  match parseTzidParam input.params with
  | .error e => .error e
  | .ok (tz, m1) =>
    match parse_date_or_datetime m1 input.value with
    | .error e => .error e
    | .ok (v, _) => .ok (.dateTime v tz)

/-- Model of `parse_attachment`: with `VALUE=BINARY` the encoding must be
`BASE64` and the body is a blob (base64-decoded externally in the source),
otherwise the value is a URI. -/
def parse_attachment (input : Line) : Except PErr Attachment :=
  match takeSingleParam input.params "FMTTYPE".toList with
  | .error e => .error e
  | .ok (fmt_type, m1) =>
    let pv := m1.take (.iana "VALUE".toList)
    match pv.1 with
    | some v =>
      match v.get_single with
      | .error e => .error e
      | .ok vs =>
        if vs ≠ "BINARY".toList then .error .onlyBinary
        else
          let pe := pv.2.take (.iana "ENCODING".toList)
          match pe.1 with
          | none => .error .noEncoding
          | some enc =>
            match enc.get_single with
            | .error e => .error e
            | .ok encs =>
              if encs ≠ "BASE64".toList then .error .onlyBase64
              else .ok ⟨fmt_type, .blob input.value⟩
    | none => .ok ⟨fmt_type, .uri input.value⟩

/-- Model of `parse_attendee` (parameter payloads raw, see `takeSingleParam`). -/
def parse_attendee (input : Line) : Except PErr Attendee :=
  match takeSingleParam input.params "CUTYPE".toList with
  | .error e => .error e
  | .ok (cutype, m1) =>
    let pm := takeListParam m1 "MEMBER".toList
    let members := opt_vec_one_to_vec pm.1
    match takeSingleParam pm.2 "ROLE".toList with
    | .error e => .error e
    | .ok (role, m2) =>
      match takeSingleParam m2 "PARTSTAT".toList with
      | .error e => .error e
      | .ok (partstat, m3) =>
        match takeSingleParam m3 "RSVP".toList with
        | .error e => .error e
        | .ok (rsvp, m4) =>
          let pdt := takeListParam m4 "DELEGATED-TO".toList
          let delegated_to := opt_vec_one_to_vec pdt.1
          let pdf := takeListParam pdt.2 "DELEGATED-FROM".toList
          let delegated_from := opt_vec_one_to_vec pdf.1
          match takeSingleParam pdf.2 "SENT-BY".toList with
          | .error e => .error e
          | .ok (sent_by, m5) =>
            match takeSingleParam m5 "CN".toList with
            | .error e => .error e
            | .ok (cn, m6) =>
              match takeSingleParam m6 "DIR".toList with
              | .error e => .error e
              | .ok (dir, m7) =>
                match takeSingleParam m7 "LANGUAGE".toList with
                | .error e => .error e
                | .ok (lang, _) =>
                  .ok ⟨cutype, members, role, partstat, rsvp, delegated_to,
                    delegated_from, sent_by, cn, dir, lang⟩

/-- Model of `parse_categories` (`LANGUAGE`, then a `Text` value list). -/
def parse_categories (input : Line) : Except PErr Categories :=
  match takeSingleParam input.params "LANGUAGE".toList with
  | .error e => .error e
  | .ok (lang, _) =>
    match Text.tryFrom input.value with
    | .error e => .error e
    | .ok values => .ok ⟨lang, values⟩

/-- Model of `parse_comment`. -/
def parse_comment (input : Line) : Except PErr Comment :=
  match takeSingleParam input.params "LANGUAGE".toList with
  | .error e => .error e
  | .ok (lang, m1) =>
    match takeSingleParam m1 "ALTREP".toList with
    | .error e => .error e
    | .ok (altrep, _) => .ok ⟨lang, altrep, input.value⟩

/-- Model of `parse_contact`. -/
def parse_contact (input : Line) : Except PErr Contact :=
  match takeSingleParam input.params "LANGUAGE".toList with
  | .error e => .error e
  | .ok (lang, m1) =>
    match takeSingleParam m1 "ALTREP".toList with
    | .error e => .error e
    | .ok (altrep, _) => .ok ⟨lang, altrep, input.value⟩

/-- Model of `parse_exception_dates`. -/
def parse_exception_dates (input : Line) : Except PErr ExceptionDateTimes :=
  match parseTzidParam input.params with
  | .error e => .error e
  | .ok (tz, m1) =>
    match parse_date_or_datetime_list m1 input.value with
    | .error e => .error e
    | .ok (values, _) => .ok ⟨tz, values⟩

/-- Model of `GeoLocation::from_str`: split once on `;` (error when absent);
the two sides are `f64`-parsed in the source (floats are outside this model,
the sides are kept raw). -/
def parseGeo (input : Str) : Except PErr GeoLocation :=
  match try_split_once ';' input with
  | none => .error .geoNoSemicolon
  | some (la, lo) => .ok ⟨la, lo⟩

/-- Model of `Priority::from_str` (`u8` parse, then clamp to at most 9). -/
def parsePriority (input : Str) : Except PErr Priority :=
  match rustParseNat 256 input with
  | .error e => .error e
  | .ok v => .ok ⟨min v 9⟩

/-! ## Builders and component assembly (`parser/mod.rs`) -/

/-- `CalendarBuilder`. -/
structure CalendarBuilder where
  prod_id : Option Str
  version_set : Bool
  cal_scale : Option CalScale
  method : Option Str
  events : List Event
deriving DecidableEq, Repr

/-- `CalendarBuilder::new`. -/
def CalendarBuilder.new : CalendarBuilder := ⟨none, false, none, none, []⟩

/-- Model of the `impl_set_01!` at-most-once setter: a second value for the
field is an error naming the property. -/
def set01 {α : Type} (cur : Option α) (label : Str) (v : α) :
    Except PErr (Option α) :=
  match cur with
  | some _ => .error (.expectedAtMostOne label)
  | none => .ok (some v)

/-- Model of `CalendarBuilder::set_prod_id` (`impl_set_01!`). -/
def CalendarBuilder.set_prod_id (b : CalendarBuilder) (v : Str) :
    Except PErr CalendarBuilder :=
  match set01 b.prod_id "PRODID".toList v with
  | .error e => .error e
  | .ok f => .ok { b with prod_id := f }

/-- Model of `CalendarBuilder::set_version`.  The source tests the
`version_set` flag but never sets it, so a duplicate `VERSION` line is in
fact not detected; the model reproduces that verbatim. -/
def CalendarBuilder.set_version (b : CalendarBuilder) :
    Except PErr CalendarBuilder :=
  if b.version_set then .error (.expectedExactlyOne "VERSION".toList)
  else .ok b

/-- Model of `CalendarBuilder::set_cal_scale` (`impl_set_01!`). -/
def CalendarBuilder.set_cal_scale (b : CalendarBuilder) (v : CalScale) :
    Except PErr CalendarBuilder :=
  match set01 b.cal_scale "CALSCALE".toList v with
  | .error e => .error e
  | .ok f => .ok { b with cal_scale := f }

/-- Model of `CalendarBuilder::set_method` (`impl_set_01!`). -/
def CalendarBuilder.set_method (b : CalendarBuilder) (v : Str) :
    Except PErr CalendarBuilder :=
  match set01 b.method "METHOD".toList v with
  | .error e => .error e
  | .ok f => .ok { b with method := f }

/-- Model of `CalendarBuilder::build`: `PRODID` is required (error naming it
when missing), `CALSCALE` defaults to Gregorian. -/
def CalendarBuilder.build (b : CalendarBuilder) : Except PErr Calendar :=
  match b.prod_id with
  | none => .error .prodIdNotSpecified
  | some pid => .ok ⟨b.events, pid, b.cal_scale.getD .gregorian, b.method⟩

/-- `EventBuilder` (`#[derive(Default)]` in the source). -/
structure EventBuilder where
  classification : Option Class := none
  created : Option DateTime := none
  description : Option AnnotatedText := none
  start : Option DateOrDateTime := none
  geo : Option GeoLocation := none
  last_modified : Option DateTime := none
  location : Option AnnotatedText := none
  organizer : Option Organizer := none
  priority : Option Priority := none
  timestamp : Option DateTime := none
  sequence : Option Nat := none
  status : Option EventStatus := none
  summary : Option AnnotatedText := none
  time_transparency : Option TimeTransparency := none
  uid : Option Str := none
  recurrence_id : Option RecurrenceId := none
  eventEnd : Option EventEnd := none
  attachments : List Attachment := []
  attendees : List Attendee := []
  categories : List Categories := []
  comments : List Comment := []
  contacts : List Contact := []
  exception_dates : List ExceptionDateTimes := []
deriving DecidableEq, Repr

/-- `EventBuilder::default`. -/
def EventBuilder.init : EventBuilder := {}

/-- Model of `EventBuilder::build`: `UID` is required; classification and
time-transparency take their defaults. -/
def EventBuilder.build (b : EventBuilder) : Except PErr Event :=
  match b.uid with
  | none => .error .missingUid
  | some uid =>
    .ok ⟨b.classification.getD .pub, b.created, b.last_modified, b.description,
      b.start, b.location, b.geo, b.organizer, b.priority, b.timestamp,
      b.sequence, b.status, b.summary, b.time_transparency.getD .opaq, uid,
      b.recurrence_id, b.eventEnd, b.attachments, b.attendees, b.categories,
      b.comments, b.contacts, b.exception_dates⟩

/-- One recognized-property step of the `Event::parse` dispatch chain (every
branch except `END` and `BEGIN`, which need the input stream); an
unrecognized property name leaves the builder unchanged, as the source's
if-chain falls through. -/
def eventStep (b : EventBuilder) (next : Line) : Except PErr EventBuilder := do
  if next.name.eqStr "CLASS".toList then
    let c ← parse_class next.value
    let f ← set01 b.classification "CLASS".toList c
    return { b with classification := f }
  else if next.name.eqStr "CREATED".toList then
    let p ← DateTime.parse next.value
    match b.created with
    | some _ => throw (.expectedAtMostOne "CREATED".toList)
    | none =>
      if !p.2.time.utc then throw .expectedUtc
      else return { b with created := some p.2 }
  else if next.name.eqStr "DESCRIPTION".toList then
    let v ← parse_annotated_text next
    let f ← set01 b.description "DESCRIPTION".toList v
    return { b with description := f }
  else if next.name.eqStr "DTSTART".toList then
    let p ← DateOrDateTime.parse next.value
    let f ← set01 b.start "START".toList p.2
    return { b with start := f }
  else if next.name.eqStr "GEO".toList then
    let v ← parseGeo next.value
    let f ← set01 b.geo "GEO".toList v
    return { b with geo := f }
  else if next.name.eqStr "LAST-MODIFIED".toList then
    let p ← DateTime.parse next.value
    let f ← set01 b.last_modified "LAST-MODIFIED".toList p.2
    return { b with last_modified := f }
  else if next.name.eqStr "LOCATION".toList then
    let v ← parse_annotated_text next
    let f ← set01 b.location "LOCATION".toList v
    return { b with location := f }
  else if next.name.eqStr "ORGANIZER".toList then
    let v ← parse_organizer next
    let f ← set01 b.organizer "ORGANIZER".toList v
    return { b with organizer := f }
  else if next.name.eqStr "PRIORITY".toList then
    let v ← parsePriority next.value
    let f ← set01 b.priority "PRIORITY".toList v
    return { b with priority := f }
  else if next.name.eqStr "DTSTAMP".toList then
    let p ← DateTime.parse next.value
    let f ← set01 b.timestamp "DTSTAMP".toList p.2
    return { b with timestamp := f }
  else if next.name.eqStr "SEQ".toList then
    let v ← rustParseNat 18446744073709551616 next.value
    let f ← set01 b.sequence "SEQ".toList v
    return { b with sequence := f }
  else if next.name.eqStr "STATUS".toList then
    let v ← parse_event_status next
    let f ← set01 b.status "STATUS".toList v
    return { b with status := f }
  else if next.name.eqStr "SUMMARY".toList then
    let v ← parse_annotated_text next
    let f ← set01 b.summary "SUMMARY".toList v
    return { b with summary := f }
  else if next.name.eqStr "TRANSP".toList then
    let v ← parse_time_transparency next
    let f ← set01 b.time_transparency "TRANSP".toList v
    return { b with time_transparency := f }
  else if next.name.eqStr "UID".toList then
    match b.uid with
    | some _ => throw (.expectedExactlyOne "UID".toList)
    | none => return { b with uid := some next.value }
  else if next.name.eqStr "RECURRENCE-ID".toList then
    let v ← parse_recurrence_id next
    let f ← set01 b.recurrence_id "RECURRENCE-ID".toList v
    return { b with recurrence_id := f }
  else if next.name.eqStr "DTEND".toList then
    let v ← parse_datetime_end next
    match b.eventEnd with
    | some _ => throw .expectedEnd01
    | none => return { b with eventEnd := some v }
  else if next.name.eqStr "DURATION".toList then
    let p ← Duration.parse next.value
    match b.eventEnd with
    | some _ => throw .expectedEnd01
    | none => return { b with eventEnd := some (.duration p.2) }
  else if next.name.eqStr "ATTACHMENT".toList then
    let v ← parse_attachment next
    return { b with attachments := b.attachments ++ [v] }
  else if next.name.eqStr "ATTENDEE".toList then
    let v ← parse_attendee next
    return { b with attendees := b.attendees ++ [v] }
  else if next.name.eqStr "CATEGORIES".toList then
    let v ← parse_categories next
    return { b with categories := b.categories ++ [v] }
  else if next.name.eqStr "COMMENT".toList then
    let v ← parse_comment next
    return { b with comments := b.comments ++ [v] }
  else if next.name.eqStr "CONTACT".toList then
    let v ← parse_contact next
    return { b with contacts := b.contacts ++ [v] }
  else if next.name.eqStr "EXDATE".toList then
    let v ← parse_exception_dates next
    return { b with exception_dates := b.exception_dates ++ [v] }
  else
    return b

/-- Loop of `Event::parse` (the `BEGIN:VEVENT` line has been consumed): stop
at `END:VEVENT` (any other `END` value errors), skip unrecognized nested
`BEGIN` subtrees, dispatch everything else through `eventStep`, and error at
end of input.  Checking `BEGIN` before the properties instead of after them
is behavior-preserving since all dispatch names are distinct. -/
def eventLoop : Nat → EventBuilder → Str → Except PErr (Event × Str)
  | 0, _, _ => .error .fuel
  | fuel + 1, b, input =>
    match take_next input with
    | .error e => .error e
    | .ok none => .error .unexpectedEOF
    | .ok (some (next, rest)) =>
      if next.name.eqStr "END".toList then
        if next.value ≠ "VEVENT".toList then
          .error (.expectedEndValue "VEVENT".toList next.value)
        else
          match b.build with
          | .error e => .error e
          | .ok ev => .ok (ev, rest)
      else if next.name.eqStr "BEGIN".toList then
        match skip_current rest with
        | .error e => .error e
        | .ok rest2 => eventLoop fuel b rest2
      else
        match eventStep b next with
        | .error e => .error e
        | .ok b2 => eventLoop fuel b2 rest

/-- Loop of `Calendar::parse` after the initial `BEGIN:VCALENDAR` line: stop
at `END:VCALENDAR` (any other `END` value errors) and build; handle `PRODID`,
`VERSION`, `CALSCALE`, `METHOD`; recurse into `BEGIN:VEVENT` blocks and skip
any other nested block; ignore unrecognized property names; error at end of
input. -/
def calendarLoop : Nat → CalendarBuilder → Str → Except PErr (Calendar × Str)
  | 0, _, _ => .error .fuel
  | fuel + 1, b, input =>
    match take_next input with
    | .error e => .error e
    | .ok none => .error .unexpectedEOF
    | .ok (some (next, rest)) =>
      if next.name.eqStr "END".toList then
        if next.value ≠ "VCALENDAR".toList then
          .error (.expectedEndValue "VCALENDAR".toList next.value)
        else
          match b.build with
          | .error e => .error e
          | .ok cal => .ok (cal, rest)
      else if next.name.eqStr "PRODID".toList then
        match parse_prodid next with
        | .error e => .error e
        | .ok v =>
          match b.set_prod_id v with
          | .error e => .error e
          | .ok b2 => calendarLoop fuel b2 rest
      else if next.name.eqStr "VERSION".toList then
        match parse_version next with
        | .error e => .error e
        | .ok _ =>
          match b.set_version with
          | .error e => .error e
          | .ok b2 => calendarLoop fuel b2 rest
      else if next.name.eqStr "CALSCALE".toList then
        match parse_cal_scale next with
        | .error e => .error e
        | .ok v =>
          match b.set_cal_scale v with
          | .error e => .error e
          | .ok b2 => calendarLoop fuel b2 rest
      else if next.name.eqStr "METHOD".toList then
        match check_iana_token next.value with
        | .error e => .error e
        | .ok _ =>
          match b.set_method next.value with
          | .error e => .error e
          | .ok b2 => calendarLoop fuel b2 rest
      else if next.name.eqStr "BEGIN".toList then
        if next.value = "VEVENT".toList then
          match eventLoop (rest.length + 1) EventBuilder.init rest with
          | .error e => .error e
          | .ok (ev, rest2) =>
            calendarLoop fuel { b with events := b.events ++ [ev] } rest2
        else
          match skip_current rest with
          | .error e => .error e
          | .ok rest2 => calendarLoop fuel b rest2
      else calendarLoop fuel b rest

/-- Model of `Calendar::parse`: consume the mandatory `BEGIN:VCALENDAR` line,
then run the property loop. -/
def Calendar.parse (input : Str) : Except PErr (Calendar × Str) :=
  match take_next input with
  | .error e => .error e
  | .ok none => .error .emptyIterator
  | .ok (some (bg, rest)) =>
    if !(bg.name.eqStr "BEGIN".toList && bg.value == "VCALENDAR".toList) then
      .error .expectedBeginVCalendar
    else calendarLoop (rest.length + 1) CalendarBuilder.new rest

/-- Loop of the top-level `parse` in `lib.rs`: while the lexer is non-empty
(`is_empty` parses and caches the next line; purity makes the cache
unobservable), parse one calendar. -/
def parseAll : Nat → Str → Except PErr (List Calendar)
  | 0, _ => .error .fuel
  | fuel + 1, input =>
    match take_next input with
    | .error e => .error e
    | .ok none => .ok []
    | .ok (some _) =>
      match Calendar.parse input with
      | .error e => .error e
      | .ok (cal, rest) =>
        match parseAll fuel rest with
        | .error e => .error e
        | .ok cals => .ok (cal :: cals)

/-- Model of the top-level entry point `parse` in `lib.rs`. -/
def parse (input : Str) : Except PErr (List Calendar) :=
  parseAll (input.length + 1) input

/-! ## Round-trip lemmas for the scalar grammars -/

theorem takeN_exact (pred : Char → Bool) (ds rest : Str) (n : Nat)
    (hn : ds.length = n) (hall : ∀ c ∈ ds, pred c = true) :
    takeN pred n (ds ++ rest) = some (ds, rest) := by
  induction ds generalizing n with
  | nil =>
    subst hn
    simp [takeN]
  | cons c t ih =>
    subst hn
    simp only [List.length_cons, List.cons_append, takeN, List.append_eq]
    rw [if_pos (hall c (by simp)), ih t.length rfl
      (fun c2 h2 => hall c2 (by simp [h2]))]
    rfl

theorem takeAtMost_exact (pred : Char → Bool) (ds rest : Str) (n : Nat)
    (hn : ds.length = n) (hall : ∀ c ∈ ds, pred c = true) :
    takeAtMost pred n (ds ++ rest) = (ds, rest) := by
  induction ds generalizing n with
  | nil =>
    subst hn
    simp [takeAtMost]
  | cons c t ih =>
    subst hn
    simp only [List.length_cons, List.cons_append, takeAtMost, List.append_eq]
    rw [if_pos (hall c (by simp)), ih t.length rfl
      (fun c2 h2 => hall c2 (by simp [h2]))]

theorem take_while_m_n_exact (mn mx : Nat) (pred : Char → Bool) (ds rest : Str)
    (hlen : ds.length = mx) (hmn : mn ≤ mx)
    (hall : ∀ c ∈ ds, pred c = true) :
    take_while_m_n mn mx pred (ds ++ rest) = .ok (rest, ds) := by
  have h1 : (ds.take mn).length = mn := by
    simp [List.length_take]
    omega
  have h2 : (ds.drop mn).length = mx - mn := by
    simp [List.length_drop]
    omega
  have hsplit : ds ++ rest = ds.take mn ++ (ds.drop mn ++ rest) := by
    rw [← List.append_assoc, List.take_append_drop]
  rw [take_while_m_n, hsplit]
  simp only [takeN_exact pred _ _ mn h1
      (fun c h => hall c (List.take_subset mn ds h)),
    takeAtMost_exact pred _ rest (mx - mn) h2
      (fun c h => hall c (List.drop_subset mn ds h))]
  simp

theorem isDigit_ne_plus {c : Char} (h : c.isDigit = true) : c ≠ '+' := by
  intro heq
  subst heq
  simp [Char.isDigit] at h

theorem rustParseNat_digits (cap : Nat) (ds : Str) (hne : ds ≠ [])
    (hall : ∀ c ∈ ds, c.isDigit = true) (hlt : decValue ds < cap) :
    rustParseNat cap ds = .ok (decValue ds) := by
  match ds, hne with
  | c :: t, _ =>
    have hc : c.isDigit = true := hall c (by simp)
    have hgood : (c :: t).all Char.isDigit = true :=
      List.all_eq_true.mpr (fun c2 h2 => hall c2 h2)
    rw [rustParseNat]
    simp only [List.head?_cons, Option.some.injEq]
    rw [if_neg (isDigit_ne_plus hc), if_neg (by simp), if_pos hgood,
      if_pos hlt]

theorem pad_decDigits_length (w n : Nat) (h : n < 10 ^ w) (hw : 1 ≤ w) :
    (padZeros w (decDigits n)).length = w :=
  padZeros_length (decDigits_length_le w n hw h)

theorem pad_decDigits_all_isDigit (w n : Nat) :
    ∀ c ∈ padZeros w (decDigits n), c.isDigit = true :=
  padZeros_all_isDigit (decDigits_all_isDigit n)

theorem pad_decDigits_decValue (w n : Nat) :
    decValue (padZeros w (decDigits n)) = n := by
  rw [decValue_padZeros, decValue_decDigits]

/-- Parsing the zero-padded 4-digit year at the head of the input consumes
exactly those four digits and returns the year. -/
theorem year_stage (y : Nat) (hy : y ≤ 9999) (rest : Str) :
    _1to4_digit_int "year".toList 0 65535 (padZeros 4 (decDigits y) ++ rest) =
      .ok (rest, y) := by
  have hp : (10 : Nat) ^ 4 = 10000 := by norm_num
  have hy4 : y < 10 ^ 4 := by omega
  have hlen := pad_decDigits_length 4 y hy4 (by omega)
  have hall := pad_decDigits_all_isDigit 4 y
  have hne : padZeros 4 (decDigits y) ≠ [] := by
    intro h
    rw [h] at hlen
    simp at hlen
  have hdv := pad_decDigits_decValue 4 y
  simp only [_1to4_digit_int,
    take_while_m_n_exact 1 4 Char.isDigit _ rest hlen (by omega) hall,
    rustParseNat_digits 65536 _ hne hall (by omega), hdv]
  rw [if_neg (by omega)]

/-- Parsing a zero-padded 2-digit field at the head of the input consumes
exactly those two digits; the result is the value or the out-of-range error,
exactly as `_1or2_digit_int` decides. -/
theorem digit2_stage_ok (ty : Str) (mn mx n : Nat) (hn : n ≤ 99)
    (h1 : mn ≤ n) (h2 : n ≤ mx) (rest : Str) :
    _1or2_digit_int ty mn mx (padZeros 2 (decDigits n) ++ rest) =
      .ok (rest, n) := by
  have hp : (10 : Nat) ^ 2 = 100 := by norm_num
  have hn2 : n < 10 ^ 2 := by omega
  have hlen := pad_decDigits_length 2 n hn2 (by omega)
  have hall := pad_decDigits_all_isDigit 2 n
  have hne : padZeros 2 (decDigits n) ≠ [] := by
    intro h
    rw [h] at hlen
    simp at hlen
  have hdv := pad_decDigits_decValue 2 n
  simp only [_1or2_digit_int,
    take_while_m_n_exact 1 2 Char.isDigit _ rest hlen (by omega) hall,
    rustParseNat_digits 256 _ hne hall (by omega), hdv]
  rw [if_neg (by omega)]

/-- Out-of-range counterpart of `digit2_stage_ok`. -/
theorem digit2_stage_err (ty : Str) (mn mx n : Nat) (hn : n ≤ 99)
    (h : n < mn ∨ mx < n) (rest : Str) :
    _1or2_digit_int ty mn mx (padZeros 2 (decDigits n) ++ rest) =
      .error (.intOutOfRange ty mn mx n) := by
  have hp : (10 : Nat) ^ 2 = 100 := by norm_num
  have hn2 : n < 10 ^ 2 := by omega
  have hlen := pad_decDigits_length 2 n hn2 (by omega)
  have hall := pad_decDigits_all_isDigit 2 n
  have hne : padZeros 2 (decDigits n) ≠ [] := by
    intro h2
    rw [h2] at hlen
    simp at hlen
  have hdv := pad_decDigits_decValue 2 n
  simp only [_1or2_digit_int,
    take_while_m_n_exact 1 2 Char.isDigit _ rest hlen (by omega) hall,
    rustParseNat_digits 256 _ hne hall (by omega), hdv]
  rw [if_pos h]

/-- In `Date::parse`, every month's bound is at most 31. -/
theorem max_day_le_31 (l : Bool) (m : Nat) : max_day l m ≤ 31 := by
  rw [max_day]
  split_ifs <;> omega

/-- The validity predicate for a `Date`: the ranges `Date::parse` enforces
(year representable in four digits, month 1-12, day 1 to the month's bound
under the `year % 4` leap rule). -/
def Date.valid (d : Date) : Prop :=
  d.full_year ≤ 9999 ∧ 1 ≤ d.month ∧ d.month ≤ 12 ∧ 1 ≤ d.day ∧
    d.day ≤ max_day (d.full_year % 4 == 0) d.month

instance (d : Date) : Decidable d.valid := by
  unfold Date.valid
  infer_instance

/-- Parsing a formatted valid date consumes exactly its eight digits and
returns the date (any suffix is untouched, since every field is read at its
maximum width). -/
theorem date_parse_display (d : Date) (h : d.valid) (rest : Str) :
    Date.parse (d.display ++ rest) = .ok (rest, d) := by
  obtain ⟨hy, hm1, hm2, hd1, hd2⟩ := h
  have hm99 : d.month ≤ 99 := by omega
  have hd99 : d.day ≤ 99 :=
    le_trans hd2 (le_trans (max_day_le_31 _ _) (by omega))
  rw [show d.display ++ rest =
      padZeros 4 (decDigits d.full_year) ++ (padZeros 2 (decDigits d.month) ++
        (padZeros 2 (decDigits d.day) ++ rest)) from by
    simp [Date.display]]
  simp only [Date.parse, year_stage d.full_year hy,
    digit2_stage_ok _ 1 12 d.month hm99 hm1 hm2,
    digit2_stage_ok _ 1 (max_day (d.full_year % 4 == 0) d.month) d.day hd99
      hd1 hd2]

theorem splitAtChecked_exact (a b : Str) (h : a.length = 2) :
    splitAtChecked 2 (a ++ b) = some (a, b) := by
  rw [splitAtChecked, if_pos (by simp [List.length_append]; omega)]
  rw [List.take_left' h, List.drop_left' h]

/-- Parsing a zero-padded 2-digit hour at the head of the input. -/
theorem time_hour_stage (h : Nat) (hh : h ≤ 23) (rest : Str) :
    time_hour (padZeros 2 (decDigits h) ++ rest) = .ok (rest, h) := by
  have hp : (10 : Nat) ^ 2 = 100 := by norm_num
  have hlen := pad_decDigits_length 2 h (by omega) (by omega)
  have hall := pad_decDigits_all_isDigit 2 h
  have hne : padZeros 2 (decDigits h) ≠ [] := by
    intro h2
    rw [h2] at hlen
    simp at hlen
  have hdv := pad_decDigits_decValue 2 h
  simp only [time_hour, splitAtChecked_exact _ rest hlen,
    rustParseNat_digits 256 _ hne hall (by omega), hdv]
  rw [if_neg (by omega)]

/-- Parsing a zero-padded 2-digit minute at the head of the input. -/
theorem time_minute_stage (m : Nat) (hm : m ≤ 59) (rest : Str) :
    time_minute (padZeros 2 (decDigits m) ++ rest) = .ok (rest, m) := by
  have hp : (10 : Nat) ^ 2 = 100 := by norm_num
  have hlen := pad_decDigits_length 2 m (by omega) (by omega)
  have hall := pad_decDigits_all_isDigit 2 m
  have hne : padZeros 2 (decDigits m) ≠ [] := by
    intro h2
    rw [h2] at hlen
    simp at hlen
  have hdv := pad_decDigits_decValue 2 m
  simp only [time_minute, splitAtChecked_exact _ rest hlen,
    rustParseNat_digits 256 _ hne hall (by omega), hdv]
  rw [if_neg (by omega)]

/-- Parsing a zero-padded 2-digit second (leap second admitted) at the head
of the input. -/
theorem time_second_stage (s : Nat) (hs : s ≤ 60) (rest : Str) :
    time_second true (padZeros 2 (decDigits s) ++ rest) = .ok (rest, s) := by
  have hp : (10 : Nat) ^ 2 = 100 := by norm_num
  have hlen := pad_decDigits_length 2 s (by omega) (by omega)
  have hall := pad_decDigits_all_isDigit 2 s
  have hne : padZeros 2 (decDigits s) ≠ [] := by
    intro h2
    rw [h2] at hlen
    simp at hlen
  have hdv := pad_decDigits_decValue 2 s
  simp only [time_second, splitAtChecked_exact _ rest hlen,
    rustParseNat_digits 256 _ hne hall (by omega), hdv]
  rw [if_pos trivial, if_neg (by omega)]

/-- The validity predicate for a `Time`: the ranges `Time::parse` enforces
(hour 0-23, minute 0-59, second 0-60 with the leap second admitted). -/
def Time.valid (t : Time) : Prop :=
  t.hour ≤ 23 ∧ t.minute ≤ 59 ∧ t.second ≤ 60

instance (t : Time) : Decidable t.valid := by
  unfold Time.valid
  infer_instance

/-- Parsing a formatted valid time returns the time and consumes the whole
string. -/
theorem time_parse_display (t : Time) (h : t.valid) :
    Time.parse t.display = .ok ([], t) := by
  obtain ⟨hh, hm, hs⟩ := h
  obtain ⟨hour, minute, second, utc⟩ := t
  cases utc with
  | true =>
    rw [show Time.display ⟨hour, minute, second, true⟩ =
        padZeros 2 (decDigits hour) ++ (padZeros 2 (decDigits minute) ++
          (padZeros 2 (decDigits second) ++ ['Z'])) from by
      simp [Time.display]]
    simp only [Time.parse, time_hour_stage hour hh,
      time_minute_stage minute hm, time_second_stage second hs]
  | false =>
    rw [show Time.display ⟨hour, minute, second, false⟩ =
        padZeros 2 (decDigits hour) ++ (padZeros 2 (decDigits minute) ++
          (padZeros 2 (decDigits second) ++ [])) from by
      simp [Time.display]]
    simp only [Time.parse, time_hour_stage hour hh,
      time_minute_stage minute hm, time_second_stage second hs]

theorem tag_single_cons (c : Char) (xs : Str) :
    tag [c] (c :: xs) = .ok (xs, [c]) := by
  simp [tag, List.isPrefixOf]

/-- The validity predicate for a `DateTime`: both halves valid. -/
def DateTime.valid (dt : DateTime) : Prop := dt.date.valid ∧ dt.time.valid

instance (dt : DateTime) : Decidable dt.valid := by
  unfold DateTime.valid
  infer_instance

/-- Parsing a formatted valid date-time returns it and consumes the whole
string. -/
theorem Datetime_parse_display (dt : DateTime) (h : dt.valid) :
    DateTime.parse dt.display = .ok ([], dt) := by
  obtain ⟨hd, ht⟩ := h
  rw [show dt.display = dt.date.display ++ ('T' :: dt.time.display) from rfl]
  simp only [DateTime.parse, date_parse_display dt.date hd,
    show ("T".toList : Str) = ['T'] from rfl, tag_single_cons,
    time_parse_display dt.time ht]

/-! ## Whitespace-document lemmas (for the empty/whitespace-input claim)

A non-empty document yields a first logical line whose characters all come
from the document; if the document is whitespace-only, that line has no `:`
and `Line::parse` reports a malformed line. -/

theorem splitCRLF_mem (input : Str) :
    ∀ a b : Str, splitCRLF input = some (a, b) →
      ∀ c : Char, c ∈ a ∨ c ∈ b → c ∈ input := by
  induction input with
  | nil => simp [splitCRLF]
  | cons x rest ih =>
    intro a b h c hc
    rw [splitCRLF] at h
    split_ifs at h with hx
    · cases h
      rcases hc with h1 | h1
      · simp at h1
      · exact List.mem_cons_of_mem _ (List.tail_subset rest h1)
    · cases hr : splitCRLF rest with
      | none => rw [hr] at h; cases h
      | some p =>
        rw [hr] at h
        cases h
        rcases hc with h1 | h1
        · rcases List.mem_cons.mp h1 with rfl | h2
          · exact List.mem_cons_self _ _
          · exact List.mem_cons_of_mem _ (ih p.1 p.2 hr c (Or.inl h2))
        · exact List.mem_cons_of_mem _ (ih p.1 p.2 hr c (Or.inr h1))

theorem unfoldCont_mem (fuel : Nat) :
    ∀ (acc input : Str) (c : Char),
      (c ∈ (unfoldCont fuel acc input).1 → c ∈ acc ∨ c ∈ input) ∧
      (c ∈ (unfoldCont fuel acc input).2 → c ∈ input) := by
  induction fuel with
  | zero =>
    intro acc input c
    refine ⟨fun h => Or.inl ?_, fun h => ?_⟩
    · simpa [unfoldCont] using h
    · simpa [unfoldCont] using h
  | succ fuel ih =>
    intro acc input c
    rw [unfoldCont]
    cases hs : splitCRLF input with
    | none =>
      dsimp only
      constructor
      · intro h1
        rcases List.mem_append.mp h1 with h2 | h2
        · exact Or.inl h2
        · exact Or.inr (List.drop_subset 1 input h2)
      · intro h1
        simp at h1
    | some p =>
      obtain ⟨seg, rest⟩ := p
      dsimp only
      have hseg : ∀ c2 : Char, c2 ∈ seg.drop 1 → c2 ∈ input :=
        fun c2 h2 =>
          splitCRLF_mem input seg rest hs c2 (Or.inl (List.drop_subset 1 seg h2))
      have hrest : ∀ c2 : Char, c2 ∈ rest → c2 ∈ input :=
        fun c2 h2 => splitCRLF_mem input seg rest hs c2 (Or.inr h2)
      by_cases hh : rest.head? = some ' '
      · rw [if_pos hh]
        constructor
        · intro h1
          rcases ((ih (acc ++ seg.drop 1) rest c).1 h1) with h2 | h2
          · rcases List.mem_append.mp h2 with h3 | h3
            · exact Or.inl h3
            · exact Or.inr (hseg c h3)
          · exact Or.inr (hrest c h2)
        · intro h1
          exact hrest c ((ih (acc ++ seg.drop 1) rest c).2 h1)
      · rw [if_neg hh]
        constructor
        · intro h1
          rcases List.mem_append.mp h1 with h2 | h2
          · exact Or.inl h2
          · exact Or.inr (hseg c h2)
        · intro h1
          exact hrest c h1

theorem lineIterNext_of_ne_nil (input : Str) (hne : input ≠ []) :
    ∃ l r, lineIterNext input = some (l, r) ∧ ∀ c ∈ l, c ∈ input := by
  rw [lineIterNext]
  cases hs : splitCRLF input with
  | none =>
    refine ⟨input, [], ?_, fun c hc => hc⟩
    rw [if_neg (by simpa using hne)]
  | some p =>
    obtain ⟨first, rest⟩ := p
    dsimp only
    have hfirst : ∀ c ∈ first, c ∈ input :=
      fun c hc => splitCRLF_mem input first rest hs c (Or.inl hc)
    have hrest : ∀ c ∈ rest, c ∈ input :=
      fun c hc => splitCRLF_mem input first rest hs c (Or.inr hc)
    by_cases hh : rest.head? = some ' '
    · rw [if_pos hh]
      refine ⟨_, _, rfl, ?_⟩
      intro c hc
      rcases (unfoldCont_mem (rest.length + 1) first rest c).1 hc with h2 | h2
      · exact hfirst c h2
      · exact hrest c h2
    · rw [if_neg hh]
      exact ⟨first, rest, rfl, hfirst⟩

theorem try_split_once_of_not_mem (delim : Char) (l : Str)
    (h : delim ∉ l) : try_split_once delim l = none := by
  induction l with
  | nil => rfl
  | cons c t ih =>
    rw [try_split_once]
    rw [if_neg (by
      intro hc
      exact h (by simp [hc]))]
    rw [ih (fun hm => h (List.mem_cons_of_mem _ hm))]

theorem isWhitespace_ne_colon {c : Char} (h : c.isWhitespace = true) :
    c ≠ ':' := by
  intro heq
  subst heq
  simp [Char.isWhitespace] at h

/-- A whitespace-only line has no `:` separator, so `Line::parse` reports it
as malformed. -/
theorem line_parse_ws (l : Str) (h : ∀ c ∈ l, c.isWhitespace = true) :
    Line.parse l = .error (.malformedLine l) := by
  rw [Line.parse, try_split_once_of_not_mem ':' l
    (fun hm => isWhitespace_ne_colon (h ':' hm) rfl)]

/-- A non-empty whitespace-only document fails to parse with a malformed-line
error on its (whitespace-only) first logical line. -/
theorem parse_whitespace_err (input : Str) (hne : input ≠ [])
    (hws : ∀ c ∈ input, c.isWhitespace = true) :
    ∃ l, parse input = .error (.malformedLine l) ∧
      ∀ c ∈ l, c.isWhitespace = true := by
  obtain ⟨l, r, hnext, hmem⟩ := lineIterNext_of_ne_nil input hne
  have hlws : ∀ c ∈ l, c.isWhitespace = true := fun c hc => hws c (hmem c hc)
  refine ⟨l, ?_, hlws⟩
  rw [parse, parseAll, take_next, hnext]
  dsimp only
  rw [line_parse_ws l hlws]

/-! ## Claim theorems -/

/-- C1: parsing the minimal document (BEGIN:VCALENDAR, a PRODID line with
the test product id, VERSION:2.0, END:VCALENDAR, all CRLF-terminated)
succeeds with exactly one calendar whose `prod_id` is the PRODID value of the
document and whose event list is empty; the same document with the PRODID line removed fails
with the missing-required-field error naming PRODID (the source message is
"PRODID not specified"). -/
theorem C1_minimal_document :
    parse "BEGIN:VCALENDAR\r\nPRODID:-//test//\r\nVERSION:2.0\r\nEND:VCALENDAR\r\n".toList =
      .ok [{ events := [], prod_id := "-//test//".toList,
             cal_scale := .gregorian, method := none }] ∧
    parse "BEGIN:VCALENDAR\r\nVERSION:2.0\r\nEND:VCALENDAR\r\n".toList =
      .error .prodIdNotSpecified :=
  ⟨rfl, rfl⟩

/-- C2 (evaluation at the failing input): property-name dispatch in the code
is case-sensitive, contradicting the claim.  The registered-name comparison
of `impl PartialEq<str> for Name` is exact string equality, so a lowercase
`prodid:` line is not dispatched to the PRODID handler (the document then
fails with "PRODID not specified" although a PRODID property was supplied),
and a lowercase `begin:` is not accepted as the opening line; the uppercase
spellings behave as the claim expects. -/
theorem C2_dispatch_case_sensitive :
    Name.eqStr (.iana "prodid".toList) "PRODID".toList = false ∧
    parse "BEGIN:VCALENDAR\r\nprodid:-//test//\r\nVERSION:2.0\r\nEND:VCALENDAR\r\n".toList =
      .error .prodIdNotSpecified ∧
    parse "begin:VCALENDAR\r\nPRODID:-//test//\r\nVERSION:2.0\r\nEND:VCALENDAR\r\n".toList =
      .error .expectedBeginVCalendar ∧
    parse "BEGIN:VCALENDAR\r\nPRODID:-//test//\r\nVERSION:2.0\r\nEND:VCALENDAR\r\n".toList =
      .ok [{ events := [], prod_id := "-//test//".toList,
             cal_scale := .gregorian, method := none }] :=
  ⟨rfl, rfl, rfl, rfl⟩

/-- C3 (evaluation at the failing input): `Duration::parse` rejects `P1D`
with the "expected `T`" error instead of returning a one-day duration: after
the day count the source unconditionally requires the literal `T` and at
least one time component.  A day count with an explicit time part parses. -/
theorem C3_day_only_duration_rejected :
    Duration.parse "P1D".toList = .error (.tagErr "T".toList) ∧
    Duration.parse "P1DT0S".toList =
      .ok ([], { negative := false, kind := .dateTime 1 0 0 0 }) :=
  ⟨rfl, rfl⟩

/-- C4 (counterexample): the whitespace-only input `" "` does not parse to an
empty calendar list; it fails with a malformed-line error, refuting the claim
as stated. -/
theorem C4_whitespace_counterexample :
    parse " ".toList = .error (.malformedLine " ".toList) ∧
    parse " ".toList ≠ .ok [] := ⟨rfl, fun h => Except.noConfusion h⟩

/-- C4 (amended): the empty input parses to an empty calendar list without an
error, while every non-empty whitespace-only input instead fails with a
malformed-line error (on its whitespace-only first logical line). -/
theorem C4_empty_ok_whitespace_errors (input : Str) (hne : input ≠ [])
    (hws : ∀ c ∈ input, c.isWhitespace = true) :
    parse ([] : Str) = .ok [] ∧
    ∃ l, parse input = .error (.malformedLine l) := by
  refine ⟨rfl, ?_⟩
  obtain ⟨l, h, _⟩ := parse_whitespace_err input hne hws
  exact ⟨l, h⟩

/-- C4 witness: the amended statement at the concrete input `" "`. -/
theorem C4_witness :
    parse ([] : Str) = .ok [] ∧
    ∃ l, parse " ".toList = .error (.malformedLine l) :=
  C4_empty_ok_whitespace_errors " ".toList (by decide) (by decide)

/-- C5: the maximum day `Date::parse` accepts depends only on the month and
the `year % 4 == 0` leap rule (`max_day`), with no century exception: for
every 4-digit year, month 1-12 and two-digit day count, parsing the fixed
eight-digit date succeeds below the bound and otherwise fails with the
out-of-range error carrying the bounds and the actual value; concretely,
`20240229` parses, `20230229` fails with day bounds 1..28 and value 29, and
`19000229` parses (no 100-year exception). -/
theorem C5_leap_rule (y m d : Nat) (hy : y ≤ 9999) (hm1 : 1 ≤ m)
    (hm12 : m ≤ 12) (hd1 : 1 ≤ d) (hd99 : d ≤ 99) :
    (Date.parse (padZeros 4 (decDigits y) ++ padZeros 2 (decDigits m) ++
        padZeros 2 (decDigits d)) =
      if d ≤ max_day (y % 4 == 0) m then .ok ([], ⟨y, m, d⟩)
      else .error (.intOutOfRange "day".toList 1 (max_day (y % 4 == 0) m) d)) ∧
    Date.parse "20240229".toList = .ok ([], ⟨2024, 2, 29⟩) ∧
    Date.parse "20230229".toList =
      .error (.intOutOfRange "day".toList 1 28 29) ∧
    Date.parse "19000229".toList = .ok ([], ⟨1900, 2, 29⟩) := by
  refine ⟨?_, rfl, rfl, rfl⟩
  have hm99 : m ≤ 99 := by omega
  rw [show padZeros 4 (decDigits y) ++ padZeros 2 (decDigits m) ++
      padZeros 2 (decDigits d) =
      padZeros 4 (decDigits y) ++ (padZeros 2 (decDigits m) ++
        (padZeros 2 (decDigits d) ++ [])) from by simp]
  by_cases hle : d ≤ max_day (y % 4 == 0) m
  · rw [if_pos hle]
    simp only [Date.parse, year_stage y hy, digit2_stage_ok _ 1 12 m hm99 hm1 hm12,
      digit2_stage_ok _ 1 (max_day (y % 4 == 0) m) d hd99 hd1 hle]
  · rw [if_neg hle]
    simp only [Date.parse, year_stage y hy, digit2_stage_ok _ 1 12 m hm99 hm1 hm12,
      digit2_stage_err _ 1 (max_day (y % 4 == 0) m) d hd99 (by omega)]

/-- C5 witness: the characterization applied at year 2024, February, day 29. -/
theorem C5_witness :
    (Date.parse (padZeros 4 (decDigits 2024) ++ padZeros 2 (decDigits 2) ++
        padZeros 2 (decDigits 29)) =
      if 29 ≤ max_day ((2024 % 4) == 0) 2 then .ok ([], ⟨2024, 2, 29⟩)
      else .error (.intOutOfRange "day".toList 1 (max_day ((2024 % 4) == 0) 2) 29)) ∧
    Date.parse "20240229".toList = .ok ([], ⟨2024, 2, 29⟩) ∧
    Date.parse "20230229".toList =
      .error (.intOutOfRange "day".toList 1 28 29) ∧
    Date.parse "19000229".toList = .ok ([], ⟨1900, 2, 29⟩) :=
  C5_leap_rule 2024 2 29 (by decide) (by decide) (by decide) (by decide)
    (by decide)

/-- C6: format/parse round-trip for the scalar value types the claim lists:
for every `Date` within the declared valid ranges, every `Time` within its
ranges (UTC flag included), and every `DateTime` combining the two, parsing
the formatted value succeeds, returns the value unchanged and consumes the
whole string. -/
theorem C6_roundtrip (d : Date) (t : Time) (dt : DateTime)
    (hd : d.valid) (ht : t.valid) (hdt : dt.valid) :
    Date.parse d.display = .ok ([], d) ∧
    Time.parse t.display = .ok ([], t) ∧
    DateTime.parse dt.display = .ok ([], dt) := by
  refine ⟨?_, time_parse_display t ht, Datetime_parse_display dt hdt⟩
  have h := date_parse_display d hd []
  simpa using h

/-- C6 witness: the round-trip at concrete valid values (a leap day, a leap
second with the UTC flag, and a century non-exception date-time). -/
theorem C6_witness :
    Date.parse (Date.display ⟨2024, 2, 29⟩) = .ok ([], ⟨2024, 2, 29⟩) ∧
    Time.parse (Time.display ⟨23, 59, 60, true⟩) =
      .ok ([], ⟨23, 59, 60, true⟩) ∧
    DateTime.parse (DateTime.display ⟨⟨1900, 2, 29⟩, ⟨0, 0, 0, false⟩⟩) =
      .ok ([], ⟨⟨1900, 2, 29⟩, ⟨0, 0, 0, false⟩⟩) :=
  C6_roundtrip ⟨2024, 2, 29⟩ ⟨23, 59, 60, true⟩ ⟨⟨1900, 2, 29⟩, ⟨0, 0, 0, false⟩⟩
    (by decide) (by decide) (by decide)

/-- C7: the logical line `param-name;val1=a,b;X-aaa-val2="c",d-d:actual value`
parses to the name `param-name`, exactly two parameters — `val1` with values
`[a, b]` and the extension parameter `aaa-val2` (vendor id `aaa`) with values
`[c, d-d]`, the quotes stripped — and the raw value `actual value`; the `,`
inside the double quotes is not a split point. -/
theorem C7_quoted_param_line :
    Line.parse "param-name;val1=a,b;X-aaa-val2=\"c\",d-d:actual value".toList =
      .ok ⟨.iana "param-name".toList,
        ⟨[("val1".toList, ⟨"a".toList, ["b".toList]⟩)],
         [(⟨some ('a', 'a', 'a'), "val2".toList⟩,
           ⟨"c".toList, ["d-d".toList]⟩)]⟩,
        "actual value".toList⟩ := rfl

/-- C8: text-value parsing maps `\\`, `\,`, `\;` to the literal character and
`\N`/`\n` to a newline, rejects a bare `;`, and splits elements on unescaped
commas: the claim's input yields exactly the three-element list
`["First text:,;\nsecond line\nthird line", "second item,", ""]`. -/
theorem C8_text_escapes :
    Text.tryFrom "First text:\\,\\;\\nsecond line\\Nthird line,second item\\,,".toList =
      .ok ⟨"First text:,;\nsecond line\nthird line".toList,
        ["second item,".toList, "".toList]⟩ ∧
    Text.tryFrom ";".toList = .error .semicolonInText ∧
    Text.tryFrom "\\\\".toList = .ok ⟨"\\".toList, []⟩ :=
  ⟨rfl, rfl, rfl⟩

/-- C9 (counterexample): a `VERSION` property carrying an extension parameter
is accepted: the document with `VERSION;X-ABC-FOO=1:2.0` parses successfully,
so "a VERSION property may carry no parameters" is false as stated (the code
only rejects IANA parameters on VERSION). -/
theorem C9_xparam_version_accepted :
    parse "BEGIN:VCALENDAR\r\nPRODID:-//test//\r\nVERSION;X-ABC-FOO=1:2.0\r\nEND:VCALENDAR\r\n".toList =
      .ok [{ events := [], prod_id := "-//test//".toList,
             cal_scale := .gregorian, method := none }] := rfl

/-- C9 (amended): inside a VCALENDAR block a `VERSION` property fails the
whole parse whenever its value differs from `2.0` (whatever its parameters),
and also whenever it carries an IANA parameter; extension (`X-`) parameters
are tolerated.  Concretely, `VERSION:1.0` aborts the document with the
"only version 2.0 supported" error, and an IANA parameter aborts it with the
unexpected-parameter error. -/
theorem C9_version_checks (p : ParamMap) (v : Str) :
    (v ≠ "2.0".toList →
      ∃ e, parse_version ⟨.iana "VERSION".toList, p, v⟩ = .error e) ∧
    (p.iana ≠ [] →
      ∃ e, parse_version ⟨.iana "VERSION".toList, p, v⟩ = .error e) ∧
    parse "BEGIN:VCALENDAR\r\nPRODID:-//test//\r\nVERSION:1.0\r\nEND:VCALENDAR\r\n".toList =
      .error .onlyVersion20 ∧
    parse "BEGIN:VCALENDAR\r\nPRODID:-//test//\r\nVERSION;FOO=1:2.0\r\nEND:VCALENDAR\r\n".toList =
      .error (.unexpectedParam "FOO".toList) := by
  refine ⟨?_, ?_, rfl, rfl⟩
  · intro hv
    rw [parse_version]
    cases hp : firstIanaParam? p with
    | some k =>
      exact ⟨.unexpectedParam k, rfl⟩
    | none =>
      rw [if_neg hv]
      exact ⟨.onlyVersion20, rfl⟩
  · intro hp
    rw [parse_version]
    cases hk : firstIanaParam? p with
    | some k => exact ⟨.unexpectedParam k, rfl⟩
    | none =>
      exfalso
      cases hi : p.iana with
      | nil => exact hp hi
      | cons a t =>
        rw [firstIanaParam?, hi] at hk
        cases hk

/-- C9 witness: the amended statement applied at a non-`2.0` value with no
parameters, and at value `2.0` with one IANA parameter. -/
theorem C9_witness :
    (∃ e, parse_version ⟨.iana "VERSION".toList, ParamMap.empty,
      "1.0".toList⟩ = .error e) ∧
    (∃ e, parse_version ⟨.iana "VERSION".toList,
      ⟨[("FOO".toList, ⟨"1".toList, []⟩)], []⟩, "2.0".toList⟩ = .error e) :=
  ⟨(C9_version_checks ParamMap.empty "1.0".toList).1 (by decide),
   (C9_version_checks ⟨[("FOO".toList, ⟨"1".toList, []⟩)], []⟩
     "2.0".toList).2.1 (by decide)⟩

/-- C10: under the derived ordering on `DateOrDateTime`, every `Date` variant
compares strictly less than every `DateTime` variant regardless of their
components (the derived order compares variants by declaration order first);
in particular `Date(9999-12-31)` orders before
`DateTime(0001-01-01T00:00:00)`. -/
theorem C10_date_lt_datetime :
    (∀ (d : Date) (dt : DateTime),
      DateOrDateTime.cmp (.date d) (.dateTime dt) = .lt) ∧
    DateOrDateTime.cmp (.date ⟨9999, 12, 31⟩)
      (.dateTime ⟨⟨1, 1, 1⟩, ⟨0, 0, 0, false⟩⟩) = .lt :=
  ⟨fun _ _ => rfl, rfl⟩

end ICal

